import Mathlib

/-!
Shallow embedding of the mission process supervisor and device state machine
of the envmon-device repository, and proofs checking the specification's
claims against it.

Embedded source files:
  * `src/agent/runtime/device_state.py` (state store: read/write/merge/set),
  * `src/api/routes/missions.py` (process registry, liveness probing,
    launcher, reaper, stop/abort),
  * `src/api/routes/status.py` (status reconciler),
  * `src/api/routes/stream.py` (event broadcaster / log tailing loop).

Modelling conventions:
  * JSON values are the inductive `Jval`; Python dicts are association lists
    with insertion-ordered keys (`dictGet` / `dictSet` mirror `d.get` and
    `d[k] = v`).  `json.dumps`/`json.loads` round-trip a well-formed value
    exactly, so the persisted state file is modelled as holding a `Jval`
    directly; unparseable file content is the `malformed` constructor.
  * OS state (PID registry file, state file, process table, created mission
    directories) lives in the `World` structure; every embedded operation is
    a pure function `World → result × World`.  The `stateLog` field records
    every DeviceState write performed (used to count state transitions),
    and `signals` records delivered kill signals.
  * Wall-clock times are passed as explicit `now` arguments.  In the stream
    loop, times are integer milliseconds (the source uses float seconds with
    thresholds 1.0 and 2.0; no claim depends on sub-millisecond timing).
  * JSON numbers are exact rationals (no arithmetic is ever performed on
    them by the embedded code; they are only stored and compared).
  * The stream loop's log events carry the index of the source line in the
    events file in addition to the emitted text, so that replay properties
    can be stated about line occurrences rather than line texts.
-/

/-- JSON value, as produced by Python's `json.loads`. -/
inductive Jval where
  | jnull
  | jbool (b : Bool)
  | jnum (q : Rat)
  | jstr (s : String)
  | jarr (xs : List Jval)
  | jobj (kvs : List (String × Jval))

/-- Python `d.get(k)`: first binding of `k` (dict keys are unique, so first
binding is the binding). -/
def dictGet : List (String × Jval) → String → Option Jval
  | [], _ => none
  | (k', v) :: t, k => if k' = k then some v else dictGet t k

/-- Python `d[k] = v`: replace the value in place if the key is present,
append the binding otherwise. -/
def dictSet : List (String × Jval) → String → Jval → List (String × Jval)
  | [], k, v => [(k, v)]
  | (k', v') :: t, k, v => if k' = k then (k', v) :: t else (k', v') :: dictSet t k v

/-- Python `if k not in st: st[k] = v` (one step of `_merge_defaults`). -/
def ensure (kvs : List (String × Jval)) (k : String) (v : Jval) : List (String × Jval) :=
  if (dictGet kvs k).isSome then kvs else kvs ++ [(k, v)]

/-- Python `for k, v in d.items(): if k not in st: st[k] = v`. -/
def ensureAll (kvs : List (String × Jval)) (ds : List (String × Jval)) : List (String × Jval) :=
  ds.foldl (fun acc kv => ensure acc kv.1 kv.2) kvs

/-- Whitespace test used by the string helpers below. -/
def wsp (c : Char) : Bool := c.isWhitespace

/-- Python `s.strip()`. -/
def pstrip (s : String) : String :=
  ⟨(((s.data.dropWhile wsp).reverse).dropWhile wsp).reverse⟩

/-- Decimal digits of a natural number (fuel-based so it reduces in the kernel). -/
def natToStrAux : Nat → Nat → List Char
  | 0, _ => []
  | fuel + 1, n =>
    if n < 10 then [Char.ofNat (48 + n)]
    else natToStrAux fuel (n / 10) ++ [Char.ofNat (48 + n % 10)]

/-- Decimal digit list of a natural number. -/
def natToStr (n : Nat) : List Char := natToStrAux (n + 1) n

/-- Python `str(i)` for an integer. -/
def intToStr (i : Int) : String :=
  match i with
  | .ofNat n => ⟨natToStr n⟩
  | .negSucc m => ⟨'-' :: natToStr (m + 1)⟩

/-- Auxiliary digit accumulator for `parseIntStr`. -/
def parseNatDigitsAux : List Char → Nat → Option Nat
  | [], acc => some acc
  | c :: t, acc => if c.isDigit then parseNatDigitsAux t (acc * 10 + (c.toNat - 48)) else none

/-- Nonempty all-digit string to a natural number. -/
def parseNatDigits : List Char → Option Nat
  | [] => none
  | cs => parseNatDigitsAux cs 0

/-- Python `int(s)` on a string: strips whitespace, accepts an optional sign
followed by decimal digits.  (Python additionally accepts underscore digit
separators and unicode digits; the registry only ever holds `str(pid)`, for
which this parser is exact.) -/
def parseIntStr (s : String) : Option Int :=
  match (pstrip s).data with
  | '+' :: rest => (parseNatDigits rest).map Int.ofNat
  | '-' :: rest => (parseNatDigits rest).map (fun n => -(n : Int))
  | cs => (parseNatDigits cs).map Int.ofNat

/-- List-of-chars starts-with test. -/
def startsWithL : List Char → List Char → Bool
  | [], _ => true
  | _ :: _, [] => false
  | p :: ps, c :: cs => p = c && startsWithL ps cs

/-- Substring occurrence test over char lists. -/
def infixL (pat : List Char) : List Char → Bool
  | [] => pat.isEmpty
  | c :: t => startsWithL pat (c :: t) || infixL pat t

/-- Python `pat in hay` for strings. -/
def strContains (hay pat : String) : Bool := infixL pat.data hay.data

/-- Python `s.startswith(pat)`. -/
def strStartsWith (s pat : String) : Bool := startsWithL pat.data s.data

/-! ## device_state.py -/

/-- The `"gps"` sub-dict of `default_state()`. -/
def gps_default : List (String × Jval) :=
  [("online", .jbool false),
   ("has_fix", .jbool false),
   ("last_seen_epoch", .jnull),
   ("fix_quality", .jnum ((0 : Int) : Rat)),
   ("satellites", .jnum ((0 : Int) : Rat)),
   ("hdop", .jnum ((9999 : Int) / (100 : Int) : Rat)),
   ("last_good_fix", .jnull)]

/-- `default_state()` — `now` is `int(time.time())`. -/
def default_state (now : Int) : List (String × Jval) :=
  [("state", .jstr "IDLE"),
   ("since_epoch", .jnum (now : Rat)),
   ("mission_id", .jnull),
   ("profile", .jnull),
   ("warnings", .jarr []),
   ("error", .jnull),
   ("pid", .jnull),
   ("gps", .jobj gps_default)]

/-- The gps block of `_merge_defaults`: replace a non-dict `"gps"` value by
the default snapshot, otherwise back-fill its missing sub-fields. -/
def merge_gps (st1 : List (String × Jval)) : List (String × Jval) :=
  match dictGet st1 "gps" with
  | some (.jobj g) => dictSet st1 "gps" (.jobj (ensureAll g gps_default))
  | _ => dictSet st1 "gps" (.jobj gps_default)

/-- `_merge_defaults(st)`: back-fill missing schema fields (including the
nested gps dict) with defaults; a non-dict value is replaced wholesale. -/
def merge_defaults (now : Int) (v : Jval) : List (String × Jval) :=
  match v with
  | .jobj st => merge_gps (ensureAll st (default_state now))
  | _ => default_state now

/-- Content of the singleton state file. `malformed` stands for file content
that `json.loads` rejects. -/
inductive FileContent where
  | missing
  | malformed
  | jval (v : Jval)

/-- `read_state()`: absent or corrupt file yields the full default state,
otherwise the parsed value is merged with defaults; never raises. -/
def read_state (fc : FileContent) (now : Int) : List (String × Jval) :=
  match fc with
  | .missing => default_state now
  | .malformed => default_state now
  | .jval v => merge_defaults now v

/-- `write_state(state)`: merges defaults and atomically replaces the file
with the serialized record. -/
def write_state (now : Int) (st : List (String × Jval)) : FileContent :=
  .jval (.jobj (merge_defaults now (.jobj st)))

/-- Tri-state `pid` argument of `set_state` (`_PID_UNCHANGED` sentinel). -/
inductive PidArg where
  | unchanged
  | set (v : Option Int)

/-- Optional string to JSON. -/
def optStrJ : Option String → Jval
  | none => .jnull
  | some s => .jstr s

/-- Optional int to JSON. -/
def optIntJ : Option Int → Jval
  | none => .jnull
  | some p => .jnum (p : Rat)

/-- Optional rational to JSON. -/
def optNumJ : Option Rat → Jval
  | none => .jnull
  | some q => .jnum q

/-- The record `set_state` builds before writing: current state with the
transition fields replaced (`warnings or []`; pid only when passed). -/
def set_state_record (fc : FileContent) (now : Int) (new_state : String)
    (mission_id : Option String) (profile : Option Jval)
    (warnings : Option (List String)) (error : Option String)
    (pid : PidArg) : List (String × Jval) :=
  let st := read_state fc now
  let st := dictSet st "state" (.jstr new_state)
  let st := dictSet st "since_epoch" (.jnum (now : Rat))
  let st := dictSet st "mission_id" (optStrJ mission_id)
  let st := dictSet st "profile" (profile.getD .jnull)
  let st := dictSet st "warnings" (.jarr (((warnings.getD []).map Jval.jstr)))
  let st := dictSet st "error" (optStrJ error)
  match pid with
  | .unchanged => st
  | .set v => dictSet st "pid" (optIntJ v)

/-- `set_state(...)` acting on the state file. -/
def set_state (fc : FileContent) (now : Int) (new_state : String)
    (mission_id : Option String) (profile : Option Jval)
    (warnings : Option (List String)) (error : Option String)
    (pid : PidArg) : FileContent :=
  write_state now (set_state_record fc now new_state mission_id profile warnings error pid)

/-- `set_gps_status(gps)`: replace only the `"gps"` entry and write back. -/
def set_gps_status (fc : FileContent) (now : Int) (gps : Jval) : FileContent :=
  write_state now (dictSet (read_state fc now) "gps" gps)

/-! ## Process model and `World` -/

/-- Status of an OS process table entry for a PID: nonexistent, zombie, or
alive with the given command line (`/proc/<pid>/cmdline`, NULs replaced by
spaces; a zombie's cmdline is empty). -/
inductive ProcStatus where
  | absent
  | zombie
  | alive (cmdline : String)

/-- The file-system and OS state the supervisor touches.  `stateLog` and
`signals` are observation traces: every DeviceState write appends the
written record, and every delivered signal appends `(pid, sig)`. -/
structure World where
  pidfile : Option String
  statefile : FileContent
  procs : Int → ProcStatus
  children : Int → Bool
  missions : List String
  stateLog : List (List (String × Jval))
  signals : List (Int × Int)

/-- `write_state` on the world, recording the transition in `stateLog`. -/
def write_state_w (w : World) (now : Int) (st : List (String × Jval)) : World :=
  { w with statefile := write_state now st
           stateLog := w.stateLog ++ [merge_defaults now (.jobj st)] }

/-- `set_state` on the world. -/
def set_state_w (w : World) (now : Int) (new_state : String)
    (mission_id : Option String) (profile : Option Jval)
    (warnings : Option (List String)) (error : Option String)
    (pid : PidArg) : World :=
  write_state_w w now (set_state_record w.statefile now new_state mission_id profile warnings error pid)

/-! ## missions.py: process helpers -/

/-- `_proc_state(pid)`: the state letter from `/proc/<pid>/stat`, `none` when
the proc entry is unreadable.  An alive process reports some non-`"Z"`
letter; the embedded code only ever compares the result against `"Z"`, so a
fixed representative `"R"` is used. -/
def proc_state (w : World) (pid : Int) : Option String :=
  match w.procs pid with
  | .absent => none
  | .zombie => some "Z"
  | .alive _ => some "R"

/-- `_pid_running_non_zombie(pid)`: not a zombie, and `os.kill(pid, 0)`
succeeds (the process exists). -/
def pid_running_non_zombie (w : World) (pid : Int) : Bool :=
  if proc_state w pid == some "Z" then false
  else
    match w.procs pid with
    | .absent => false
    | _ => true

/-- `_pid_is_logger(pid)`: the command line names the mission-logger entry
point.  Absent process: no cmdline file; zombie: empty cmdline, no match. -/
def pid_is_logger (w : World) (pid : Int) : Bool :=
  match w.procs pid with
  | .alive cmdline => strContains cmdline "agent.logger" || strContains cmdline "-m agent.logger"
  | _ => false

/-- `_cleanup_pidfile_if_matches(pid)`: delete the registry file only when
its stripped content equals `str(pid)`. -/
def cleanup_pidfile_if_matches (w : World) (pid : Int) : World :=
  match w.pidfile with
  | some c => if pstrip c = intToStr pid then { w with pidfile := none } else w
  | none => w

/-- `_try_reap(pid)`: `os.waitpid(pid, WNOHANG)` — reaps the zombie only when
it is a child of the supervisor process; otherwise `ChildProcessError` is
swallowed and nothing changes. -/
def try_reap (w : World) (pid : Int) : World :=
  if w.children pid then
    match w.procs pid with
    | .zombie => { w with procs := fun q => if q = pid then .absent else w.procs q }
    | _ => w
  else w

/-- The probe sequence of `_is_running()` after the registry PID has been
parsed: zombie → reap + clear; alive and identity-matching → running;
anything else → clear. -/
def is_running_checked (w : World) (pid : Int) : (Bool × Option Int) × World :=
  if proc_state w pid == some "Z" then
    let w := try_reap w pid
    ((false, none), { w with pidfile := none })
  else if pid_running_non_zombie w pid && pid_is_logger w pid then
    ((true, some pid), w)
  else
    ((false, none), { w with pidfile := none })

/-- `_is_running()`: `(running, pid)` plus registry cleanup side effects. -/
def is_running (w : World) : (Bool × Option Int) × World :=
  match w.pidfile with
  | none => ((false, none), w)
  | some c =>
    match parseIntStr c with
    | none => ((false, none), { w with pidfile := none })
    | some pid => is_running_checked w pid

/-- The crash check of `_watch_and_reap`: the state still shows this pid AND
this mission id with state ARMING or RUNNING. -/
def reap_should_fix (st : List (String × Jval)) (pid : Int) (mission_id : String) : Bool :=
  (match dictGet st "pid" with
   | some (.jnum q) => q == (pid : Rat)
   | _ => false) &&
  (match dictGet st "mission_id" with
   | some (.jstr s) => s == mission_id
   | _ => false) &&
  (match dictGet st "state" with
   | some (.jstr s) => s == "ARMING" || s == "RUNNING"
   | _ => false)

/-- The state-correction tail of `_watch_and_reap`: force IDLE with the
reaper warning when the logger did not reset the state itself. -/
def reap_fix_state (w : World) (pid : Int) (mission_id : String) (now : Int) : World :=
  if reap_should_fix (read_state w.statefile now) pid mission_id then
    set_state_w w now "IDLE" none none
      (some ["Mission process ended (reaper cleanup)."]) none (.set none)
  else w

/-- `_watch_and_reap(proc, mission_id)`, observed after the child has
terminated: `proc.wait()` reaps the child (it is our child by construction),
the registry is cleared if it still matches, and a DeviceState still showing
this pid AND this mission id in ARMING/RUNNING is forced to IDLE. -/
def watch_and_reap (w : World) (pid : Int) (mission_id : String) (now : Int) : World :=
  let w := { w with procs := fun q => if q = pid then .absent else w.procs q }
  let w := cleanup_pidfile_if_matches w pid
  reap_fix_state w pid mission_id now

/-! ## missions.py: routes -/

/-- JSON body of `POST /missions/start` after framework parsing (each field
optional; `fixed_location` sub-fields optional). -/
structure FixedLoc where
  lat : Option Rat
  lon : Option Rat
  alt_m : Option Rat

/-- Optional payload fields of the start request. -/
structure Payload where
  duration : Option Int
  sample_hz : Option Rat
  photo_every : Option Int
  gps_mode : Option String
  camera_mode : Option String
  location_mode : Option String
  fixed_location : Option FixedLoc
  gps_timeout_s : Option Int
  gps_stable_s : Option Int

/-- The profile dict built by `start_mission` (payload with defaults). -/
def profile_json (p : Payload) : Jval :=
  let fl := p.fixed_location.getD ⟨none, none, none⟩
  .jobj
    [("duration_s", .jnum ((p.duration.getD 60 : Int) : Rat)),
     ("sample_hz", .jnum (p.sample_hz.getD 2)),
     ("photo_every_s", .jnum ((p.photo_every.getD 5 : Int) : Rat)),
     ("gps_mode", .jstr (p.gps_mode.getD "best_effort")),
     ("camera_mode", .jstr (p.camera_mode.getD "on")),
     ("location_mode", .jstr (p.location_mode.getD "gps")),
     ("fixed_location", .jobj
        [("lat", optNumJ fl.lat), ("lon", optNumJ fl.lon), ("alt_m", optNumJ fl.alt_m)]),
     ("gps_timeout_s", .jnum ((p.gps_timeout_s.getD 180 : Int) : Rat)),
     ("gps_stable_s", .jnum ((p.gps_stable_s.getD 5 : Int) : Rat))]

/-- Result of `POST /missions/start`. -/
inductive StartResult where
  | alreadyRunning (status : Nat) (error : String)
  | started (pid : Int) (mission_id : String) (profile : Jval)
  | launchFailed

/-- The pid printed in the 409 error (`f"... (pid={pid})"`). -/
def pidRepr : Option Int → String
  | some p => intToStr p
  | none => "None"

/-- The body of `start_mission()` past the already-running check: create the
mission directory (with its initial meta) synchronously, spawn the child,
record its PID in the registry, transition DeviceState to ARMING. -/
def start_mission_go (w : World) (payload : Payload) (mission_id : String)
    (newPid : Int) (now : Int) (spawnOk : Bool) : StartResult × World :=
  let w := { w with missions := w.missions ++ [mission_id] }
  if spawnOk then
    let w := { w with pidfile := some (intToStr newPid) }
    let w := set_state_w w now "ARMING" (some mission_id)
      (some (profile_json payload)) (some []) none (.set (some newPid))
    (.started newPid mission_id (profile_json payload), w)
  else
    (.launchFailed, w)

/-- `start_mission()`.  `mission_id` stands for `new_mission_id()` and
`newPid` for the spawned child's pid; `spawnOk` is whether `Popen`
succeeded.  The background reaper thread it spawns is modelled separately by
`watch_and_reap`. -/
def start_mission (w : World) (payload : Payload) (mission_id : String)
    (newPid : Int) (now : Int) (spawnOk : Bool) : StartResult × World :=
  match is_running w with
  | ((true, pid), w) =>
    (.alreadyRunning 409 ("Mission already running (pid=" ++ pidRepr pid ++ ")"), w)
  | ((false, _), w) => start_mission_go w payload mission_id newPid now spawnOk

/-- Result of `POST /missions/stop` and `POST /missions/abort`. -/
inductive StopResult where
  | ok
  | notRunning (status : Nat) (error : String)

/-- `stop_mission()`: SIGTERM (15) to the running mission's group, or the
idempotent not-running path (clear registry, force IDLE, 404). -/
def stop_mission (w : World) (now : Int) : StopResult × World :=
  match is_running w with
  | ((true, some pid), w) =>
    let w := { w with signals := w.signals ++ [(pid, 15)] }
    let w := cleanup_pidfile_if_matches w pid
    (.ok, w)
  | ((_, _), w) =>
    let w := { w with pidfile := none }
    let w := set_state_w w now "IDLE" none none (some []) none (.set none)
    (.notRunning 404 "No running mission", w)

/-- `abort_mission()`: same as stop with SIGUSR1 (10). -/
def abort_mission (w : World) (now : Int) : StopResult × World :=
  match is_running w with
  | ((true, some pid), w) =>
    let w := { w with signals := w.signals ++ [(pid, 10)] }
    let w := cleanup_pidfile_if_matches w pid
    (.ok, w)
  | ((_, _), w) =>
    let w := { w with pidfile := none }
    let w := set_state_w w now "IDLE" none none (some []) none (.set none)
    (.notRunning 404 "No running mission", w)

/-! ## status.py

`status.py` defines its own `_proc_state` and `_pid_running_non_zombie`,
character-for-character identical to the ones in `missions.py`; the same
embedding definitions are reused here.  Note the status route does NOT call
`_pid_is_logger` or `_is_running`. -/

/-- Truth of `st.get("state") in ("ARMING", "RUNNING")`. -/
def claims_active (st : List (String × Jval)) : Bool :=
  match dictGet st "state" with
  | some (.jstr s) => s == "ARMING" || s == "RUNNING"
  | _ => false

/-- The `running`/`pid` overlay the `/status` handler applies just before
returning (`st["running"] = running; st["pid"] = pid if running else None`). -/
def status_overlay (st : List (String × Jval)) (running : Bool) (pid : Option Int) :
    List (String × Jval) :=
  dictSet (dictSet st "running" (.jbool running)) "pid"
    (if running then optIntJ pid else .jnull)

/-- Shared tail of the `/status` handler: stale-state correction followed by
the `running`/`pid` overlay (the overlay is spelled once per branch here;
the source performs it once after the correction, which is the same). -/
def status_finish (w : World) (now : Int) (st : List (String × Jval))
    (running : Bool) (pid : Option Int) : (List (String × Jval)) × World :=
  if claims_active st && !running then
    let w2 := set_state_w w now "IDLE" none none
      (some ["Stale RUNNING state corrected."]) none (.set none)
    (status_overlay (read_state w2.statefile now) running pid, w2)
  else
    (status_overlay st running pid, w)

/-- The `/status` handler once the registry PID has been parsed. -/
def status_route_checked (w : World) (now : Int) (st : List (String × Jval))
    (pid : Int) : (List (String × Jval)) × World :=
  let running := pid_running_non_zombie w pid
  if running then status_finish w now st true (some pid)
  else status_finish { w with pidfile := none } now st false (some pid)

/-- `GET /status`: re-derive `running`/`pid` from the registry (alive and
non-zombie only — identity is not checked here), clean a dead registry
entry, correct stale ARMING/RUNNING state, overlay `running`/`pid`. -/
def status_route (w : World) (now : Int) : (List (String × Jval)) × World :=
  let st := read_state w.statefile now
  match w.pidfile with
  | none => status_finish w now st false none
  | some c =>
    match parseIntStr c with
    | none => status_finish { w with pidfile := none } now st false none
    | some pid => status_route_checked w now st pid

/-! ## stream.py: the `gen()` loop -/

/-- Per-observer loop state of `gen()`: the last seen mission id, whether
`events_fp` is open, the read cursor (as a line index into the events file;
the byte cursor of the source advances monotonically with it because the
file is append-only), and the two emission timers (ms). -/
structure GenState where
  lastMissionId : Option String
  eventsOpen : Bool
  eventsPos : Nat
  lastTelTs : Int
  lastHbTs : Int

/-- Initial `gen()` state. -/
def initGen : GenState :=
  { lastMissionId := none, eventsOpen := false, eventsPos := 0, lastTelTs := 0, lastHbTs := 0 }

/-- Environment observed by one loop iteration: the clock (ms), the record
`read_state()` returned, `_tail_last_line` of the current mission's
telemetry file, and existence/content (as complete lines) of the current
mission's `events.jsonl`. -/
structure TickIn where
  now : Int
  st : List (String × Jval)
  telLast : Option String
  evExists : Bool
  evLines : List String

instance : Inhabited TickIn := ⟨⟨0, [], none, false, []⟩⟩

/-- `st.get("mission_id")` as an optional string. -/
def missionOf (st : List (String × Jval)) : Option String :=
  match dictGet st "mission_id" with
  | some (.jstr s) => some s
  | _ => none

/-- Python truthiness of the mission id (`None` and `""` are falsy). -/
def missionTruthy : Option String → Bool
  | none => false
  | some s => s ≠ ""

/-- Heartbeat event payload. -/
structure HbEvt where
  ts : Int
  state : Jval
  mission_id : Jval
  warnings : Jval
  error : Jval
  pid : Jval

/-- Events one iteration pushes to the observer.  Log events carry the
index of the originating line in the events file next to the emitted text. -/
structure TickOut where
  heartbeat : Option HbEvt
  telemetry : Option (String × String)
  logs : List (Nat × String)

/-- Heartbeat block: fires at ≥ 1s intervals. -/
def hbStep (g : GenState) (i : TickIn) : GenState × Option HbEvt :=
  if i.now - g.lastHbTs ≥ 1000 then
    ({ g with lastHbTs := i.now },
     some { ts := i.now
            state := (dictGet i.st "state").getD .jnull
            mission_id := (dictGet i.st "mission_id").getD .jnull
            warnings := (dictGet i.st "warnings").getD (.jarr [])
            error := (dictGet i.st "error").getD .jnull
            pid := (dictGet i.st "pid").getD .jnull })
  else (g, none)

/-- Mission-change block: on a changed mission id, remember it and reset the
log tail (file closed, cursor zeroed). -/
def resetStep (g : GenState) (i : TickIn) : GenState :=
  let mission := missionOf i.st
  if mission ≠ g.lastMissionId then
    { g with lastMissionId := mission, eventsOpen := false, eventsPos := 0 }
  else g

/-- Emission part of the telemetry block: emit the last telemetry line
unless it is empty or the header line. -/
def telEmit (g : GenState) (mission : Option String) (telLast : Option String) :
    GenState × Option (String × String) :=
  match mission, telLast with
  | some m, some line =>
    if line ≠ "" && !strStartsWith line "ts_epoch" then (g, some (m, line)) else (g, none)
  | _, _ => (g, none)

/-- Telemetry block: at ≥ 2s intervals, emit the last telemetry line unless
it is empty or the header line. -/
def telStep (g : GenState) (i : TickIn) : GenState × Option (String × String) :=
  if missionTruthy (missionOf i.st) && decide (i.now - g.lastTelTs ≥ 2000) then
    telEmit { g with lastTelTs := i.now } (missionOf i.st) i.telLast
  else (g, none)

/-- Lazy open of the events file: when it is not yet open and exists, open
it and put the cursor at end-of-file. -/
def logOpen (g : GenState) (evExists : Bool) (lines : List String) : GenState :=
  if !g.eventsOpen && evExists then
    { g with eventsOpen := true, eventsPos := lines.length }
  else g

/-- Drain of newly appended lines from the cursor, advancing it; blank lines
are skipped but still consume cursor. -/
def logDrain (g : GenState) (lines : List String) : GenState × List (Nat × String) :=
  if g.eventsOpen then
    ({ g with eventsPos := max g.eventsPos lines.length },
     (List.range' g.eventsPos (lines.length - g.eventsPos)).filterMap (fun n =>
       if pstrip (lines.getD n "") = "" then none else some (n, pstrip (lines.getD n ""))))
  else (g, [])

/-- Log tail block: lazily open the events file with the cursor at
end-of-file, then drain newly appended lines from the cursor. -/
def logStep (g : GenState) (i : TickIn) : GenState × List (Nat × String) :=
  if missionTruthy (missionOf i.st) then
    logDrain (logOpen g i.evExists i.evLines) i.evLines
  else (g, [])

/-- One iteration of the `while True` loop of `gen()`. -/
def tickG (g : GenState) (i : TickIn) : GenState × TickOut :=
  let r1 := hbStep g i
  let g2 := resetStep r1.1 i
  let r3 := telStep g2 i
  let r4 := logStep r3.1 i
  (r4.1, { heartbeat := r1.2, telemetry := r3.2, logs := r4.2 })

/-- Loop state before iteration `t`, starting from `initGen`. -/
def stateAt (ins : List TickIn) : Nat → GenState
  | 0 => initGen
  | t + 1 => (tickG (stateAt ins t) (ins.getD t default)).1

/-- Events emitted by iteration `t`. -/
def outAt (ins : List TickIn) (t : Nat) : TickOut :=
  (tickG (stateAt ins t) (ins.getD t default)).2

/-! ## Specification-side predicates and helpers -/

/-- All seven fields of the gps snapshot schema are present. -/
def gps_fields_present (g : List (String × Jval)) : Bool :=
  (dictGet g "online").isSome && (dictGet g "has_fix").isSome &&
  (dictGet g "last_seen_epoch").isSome && (dictGet g "fix_quality").isSome &&
  (dictGet g "satellites").isSome && (dictGet g "hdop").isSome &&
  (dictGet g "last_good_fix").isSome

/-- A well-formed DeviceState record: every schema field present, including
the nested gps snapshot's fields. -/
def wellFormedB (st : List (String × Jval)) : Bool :=
  (dictGet st "state").isSome && (dictGet st "since_epoch").isSome &&
  (dictGet st "mission_id").isSome && (dictGet st "profile").isSome &&
  (dictGet st "warnings").isSome && (dictGet st "error").isSome &&
  (dictGet st "pid").isSome &&
  (match dictGet st "gps" with
   | some (.jobj g) => gps_fields_present g
   | _ => false)

/-- Whether a JSON value is an object. -/
def isObj : Jval → Bool
  | .jobj _ => true
  | _ => false

/-- What `GET /status` actually treats as "running": the registry holds a
parseable PID whose process is alive and not a zombie (identity is not
consulted). -/
def registry_running (w : World) : Bool :=
  match w.pidfile with
  | none => false
  | some c =>
    match parseIntStr c with
    | none => false
    | some pid => pid_running_non_zombie w pid

/-- The parsed registry PID, if any. -/
def registry_pid (w : World) : Option Int :=
  match w.pidfile with
  | none => none
  | some c => parseIntStr c

/-- A stop-or-abort request. -/
inductive StopOp where
  | stop
  | abort

/-- A sequence of stop/abort requests (each with its wall-clock time),
returning each call's result together with the world it left behind. -/
def run_stop_ops (w : World) : List (StopOp × Int) → List (StopResult × World)
  | [] => []
  | (op, now) :: rest =>
    let rw := match op with
      | .stop => stop_mission w now
      | .abort => abort_mission w now
    rw :: run_stop_ops rw.2 rest

/-! ## Concrete instances used by witnesses and counterexamples -/

/-- A command line that `_pid_is_logger` accepts. -/
def logger_cmdline : String := "/usr/bin/python3 -m agent.logger --mission-id m1"

/-- A well-formed RUNNING DeviceState record with the given pid/mission. -/
def rec_running (pid : Int) (mid : String) : List (String × Jval) :=
  [("state", .jstr "RUNNING"),
   ("since_epoch", .jnum ((50 : Int) : Rat)),
   ("mission_id", .jstr mid),
   ("profile", .jnull),
   ("warnings", .jarr []),
   ("error", .jnull),
   ("pid", .jnum ((pid : Int) : Rat)),
   ("gps", .jobj gps_default)]

/-- An empty/fresh world: no registry file, no state file, empty process
table. -/
def base_world : World :=
  { pidfile := none, statefile := .missing, procs := fun _ => .absent,
    children := fun _ => false, missions := [], stateLog := [], signals := [] }

/-- World with an alive, identity-matching mission at pid 42. -/
def w_c1 : World :=
  { base_world with pidfile := some "42",
                    procs := fun p => if p = 42 then .alive logger_cmdline else .absent }

/-- An empty start payload (all defaults apply). -/
def payload0 : Payload := ⟨none, none, none, none, none, none, none, none, none⟩

/-- World with a zombie at pid 4 that is NOT a child of the supervisor. -/
def w_c3 : World :=
  { base_world with pidfile := some "4",
                    procs := fun p => if p = 4 then .zombie else .absent }

/-- World with a zombie at pid 4 that IS a child of the supervisor. -/
def w_c3b : World := { w_c3 with children := fun p => p == 4 }

/-- World whose DeviceState shows pid 5 of mission "mA" RUNNING while the
registry holds "9". -/
def w_c4 : World :=
  { base_world with pidfile := some "9",
                    statefile := .jval (.jobj (rec_running 5 "mA")) }

/-- World whose DeviceState shows pid 5 of mission "mB" RUNNING and whose
registry holds "5". -/
def w_c4b : World :=
  { base_world with pidfile := some "5",
                    statefile := .jval (.jobj (rec_running 5 "mB")) }

/-- World whose registry points at a live process that is not the logger. -/
def w_c5 : World :=
  { base_world with pidfile := some "7",
                    procs := fun p => if p = 7 then .alive "python -m other.tool" else .absent }

/-- World with no registry file but a stored RUNNING state (stale). -/
def w_c5b : World :=
  { base_world with statefile := .jval (.jobj (rec_running 3 "mX")) }

/-- A complete gps snapshot distinct from the default one. -/
def gps_snap : List (String × Jval) :=
  [("online", .jbool true),
   ("has_fix", .jbool true),
   ("last_seen_epoch", .jnum ((99 : Int) : Rat)),
   ("fix_quality", .jnum ((1 : Int) : Rat)),
   ("satellites", .jnum ((7 : Int) : Rat)),
   ("hdop", .jnum ((1 : Int) : Rat)),
   ("last_good_fix", .jnull)]

/-- Partial state record carrying a mission id (stream loop input). -/
def st_m (mid : String) : List (String × Jval) :=
  [("mission_id", .jstr mid), ("state", .jstr "RUNNING")]

/-- Two stream iterations over mission "m": line "a" pre-exists when the log
is first opened, line "b" is appended afterwards. -/
def ins_c7 : List TickIn :=
  [⟨0, st_m "m", none, true, ["a"]⟩,
   ⟨200, st_m "m", none, true, ["a", "b"]⟩]

/-! ## Association-list lemmas -/

theorem dictGet_dictSet (kvs : List (String × Jval)) (k k' : String) (v : Jval) :
    dictGet (dictSet kvs k v) k' = if k' = k then some v else dictGet kvs k' := by
  induction kvs with
  | nil =>
    by_cases h : k' = k
    · subst h
      simp [dictSet, dictGet]
    · simp [dictSet, dictGet, h]
      exact fun hh => absurd hh.symm h
  | cons hd t ih =>
    obtain ⟨a, b⟩ := hd
    by_cases hak : a = k
    · subst hak
      by_cases h : k' = a
      · subst h
        simp [dictSet, dictGet]
      · simp [dictSet, dictGet, h]
        rw [if_neg (fun hh => absurd hh.symm h), if_neg (fun hh => absurd hh.symm h)]
    · by_cases h : k' = a
      · subst h
        simp [dictSet, dictGet, hak]
      · simp [dictSet, dictGet, hak, h, ih]
        rw [if_neg (fun hh => absurd hh.symm h)]
        by_cases hkk : k' = k
        · simp [hkk]
        · simp [hkk]
          rw [if_neg (fun hh => absurd hh.symm h)]

theorem dictSet_self {kvs : List (String × Jval)} {k : String} {v : Jval}
    (h : dictGet kvs k = some v) : dictSet kvs k v = kvs := by
  induction kvs with
  | nil => simp [dictGet] at h
  | cons hd t ih =>
    obtain ⟨a, b⟩ := hd
    by_cases hak : a = k
    · subst hak
      simp [dictGet] at h
      simp [dictSet, h]
    · simp [dictGet, hak] at h
      simp [dictSet, hak, ih h]

theorem dictGet_append_none {l₁ : List (String × Jval)} {k : String}
    (h : dictGet l₁ k = none) (l₂ : List (String × Jval)) :
    dictGet (l₁ ++ l₂) k = dictGet l₂ k := by
  induction l₁ with
  | nil => simp
  | cons hd t ih =>
    obtain ⟨a, b⟩ := hd
    by_cases hak : a = k
    · simp [dictGet, hak] at h
    · simp [dictGet, hak] at h ⊢
      exact ih h

theorem dictGet_append_some {l₁ : List (String × Jval)} {k : String} {v : Jval}
    (h : dictGet l₁ k = some v) (l₂ : List (String × Jval)) :
    dictGet (l₁ ++ l₂) k = some v := by
  induction l₁ with
  | nil => simp [dictGet] at h
  | cons hd t ih =>
    obtain ⟨a, b⟩ := hd
    by_cases hak : a = k
    · simp [dictGet, hak] at h ⊢
      exact h
    · simp [dictGet, hak] at h ⊢
      exact ih h

theorem ensure_present_self (kvs : List (String × Jval)) (k : String) (v : Jval) :
    (dictGet (ensure kvs k v) k).isSome := by
  unfold ensure
  cases hk : dictGet kvs k with
  | some w => simp [hk]
  | none =>
    simp [hk, dictGet_append_none hk]
    simp [dictGet]

theorem ensure_other {k k' : String} (h : k' ≠ k) (kvs : List (String × Jval)) (v : Jval) :
    dictGet (ensure kvs k v) k' = dictGet kvs k' := by
  unfold ensure
  cases hk : dictGet kvs k with
  | some w => simp
  | none =>
    simp
    cases hk' : dictGet kvs k' with
    | some w => rw [dictGet_append_some hk']
    | none =>
      rw [dictGet_append_none hk']
      show (if k = k' then some v else dictGet [] k') = none
      rw [if_neg (fun hh => absurd hh.symm h)]
      rfl

theorem ensure_preserves {kvs : List (String × Jval)} {k' : String}
    (h : (dictGet kvs k').isSome) (k : String) (v : Jval) :
    (dictGet (ensure kvs k v) k').isSome := by
  by_cases hkk : k' = k
  · subst hkk
    exact ensure_present_self kvs k' v
  · rw [ensure_other hkk]
    exact h

theorem ensure_absent {kvs : List (String × Jval)} {k : String}
    (h : dictGet kvs k = none) (v : Jval) :
    dictGet (ensure kvs k v) k = some v := by
  unfold ensure
  simp [h, dictGet_append_none h, dictGet]

theorem ensureAll_cons (kvs : List (String × Jval)) (k : String) (v : Jval)
    (ds : List (String × Jval)) :
    ensureAll kvs ((k, v) :: ds) = ensureAll (ensure kvs k v) ds := rfl

theorem ensureAll_preserves {k' : String} :
    ∀ (ds kvs : List (String × Jval)), (dictGet kvs k').isSome →
      (dictGet (ensureAll kvs ds) k').isSome := by
  intro ds
  induction ds with
  | nil => intro kvs h; exact h
  | cons hd t ih =>
    intro kvs h
    obtain ⟨k, v⟩ := hd
    rw [ensureAll_cons]
    exact ih _ (ensure_preserves h k v)

theorem ensureAll_mem_present {k' : String} :
    ∀ (ds kvs : List (String × Jval)), k' ∈ ds.map Prod.fst →
      (dictGet (ensureAll kvs ds) k').isSome := by
  intro ds
  induction ds with
  | nil => intro kvs h; simp at h
  | cons hd t ih =>
    intro kvs h
    obtain ⟨k, v⟩ := hd
    rw [ensureAll_cons]
    rw [List.map_cons, List.mem_cons] at h
    rcases h with h | h
    · subst h
      exact ensureAll_preserves t _ (ensure_present_self kvs k' v)
    · exact ih _ h

theorem ensureAll_other {k' : String} :
    ∀ (ds kvs : List (String × Jval)), k' ∉ ds.map Prod.fst →
      dictGet (ensureAll kvs ds) k' = dictGet kvs k' := by
  intro ds
  induction ds with
  | nil => intro kvs _; rfl
  | cons hd t ih =>
    intro kvs h
    obtain ⟨k, v⟩ := hd
    rw [List.map_cons] at h
    have h1 : k' ≠ k := fun hh => h (by rw [hh]; exact List.mem_cons_self _ _)
    have h2 : k' ∉ t.map Prod.fst := fun hh => h (List.mem_cons_of_mem _ hh)
    rw [ensureAll_cons, ih _ h2, ensure_other h1]

theorem ensureAll_noop :
    ∀ (ds kvs : List (String × Jval)), (∀ kv ∈ ds, (dictGet kvs kv.1).isSome) →
      ensureAll kvs ds = kvs := by
  intro ds
  induction ds with
  | nil => intro kvs _; rfl
  | cons hd t ih =>
    intro kvs h
    obtain ⟨k, v⟩ := hd
    rw [ensureAll_cons]
    have hk : (dictGet kvs k).isSome := h (k, v) (by simp)
    have he : ensure kvs k v = kvs := by
      unfold ensure
      simp [hk]
    rw [he]
    exact ih _ (fun kv hkv => h kv (by simp [hkv]))

theorem ensureAll_absent_mem {k : String} {v : Jval} :
    ∀ (ds kvs : List (String × Jval)), (ds.map Prod.fst).Nodup → (k, v) ∈ ds →
      dictGet kvs k = none → dictGet (ensureAll kvs ds) k = some v := by
  intro ds
  induction ds with
  | nil => intro kvs _ hmem _; simp at hmem
  | cons hd t ih =>
    intro kvs hnd hmem habs
    obtain ⟨k₁, v₁⟩ := hd
    rw [List.map_cons, List.nodup_cons] at hnd
    rcases List.mem_cons.mp hmem with h | h
    · injection h with h1 h2
      subst h1; subst h2
      rw [ensureAll_cons, ensureAll_other t _ hnd.1]
      exact ensure_absent habs v
    · have hk1 : k ≠ k₁ := by
        intro hkk
        subst hkk
        exact hnd.1 (List.mem_map.mpr ⟨(k, v), h, rfl⟩)
      rw [ensureAll_cons]
      exact ih _ hnd.2 h (by rw [ensure_other hk1]; exact habs)

/-! ## Wellformedness and merge lemmas -/

theorem isSome_ite_some {c : Prop} [Decidable c] {v : Jval} {o : Option Jval}
    (h : o.isSome = true) : (if c then some v else o).isSome = true := by
  split
  · rfl
  · exact h

theorem gps_fields_present_ensureAll (g : List (String × Jval)) :
    gps_fields_present (ensureAll g gps_default) = true := by
  simp only [gps_fields_present, Bool.and_eq_true]
  refine ⟨⟨⟨⟨⟨⟨?_, ?_⟩, ?_⟩, ?_⟩, ?_⟩, ?_⟩, ?_⟩ <;>
    exact ensureAll_mem_present _ _ (by simp [gps_default])

theorem wellFormed_after_gps_set (st1 g : List (String × Jval))
    (hpres : ∀ k ∈ (["state", "since_epoch", "mission_id", "profile", "warnings", "error", "pid"] : List String),
      (dictGet st1 k).isSome = true)
    (hg : gps_fields_present g = true) :
    wellFormedB (dictSet st1 "gps" (.jobj g)) = true := by
  simp only [wellFormedB, Bool.and_eq_true]
  refine ⟨⟨⟨⟨⟨⟨⟨?_, ?_⟩, ?_⟩, ?_⟩, ?_⟩, ?_⟩, ?_⟩, ?_⟩
  · rw [dictGet_dictSet]; exact isSome_ite_some (hpres _ (by simp))
  · rw [dictGet_dictSet]; exact isSome_ite_some (hpres _ (by simp))
  · rw [dictGet_dictSet]; exact isSome_ite_some (hpres _ (by simp))
  · rw [dictGet_dictSet]; exact isSome_ite_some (hpres _ (by simp))
  · rw [dictGet_dictSet]; exact isSome_ite_some (hpres _ (by simp))
  · rw [dictGet_dictSet]; exact isSome_ite_some (hpres _ (by simp))
  · rw [dictGet_dictSet]; exact isSome_ite_some (hpres _ (by simp))
  · rw [dictGet_dictSet, if_pos rfl]
    exact hg

theorem merge_gps_wf (st1 : List (String × Jval))
    (hpres : ∀ k ∈ (["state", "since_epoch", "mission_id", "profile", "warnings", "error", "pid"] : List String),
      (dictGet st1 k).isSome = true) :
    wellFormedB (merge_gps st1) = true := by
  unfold merge_gps
  cases hg : dictGet st1 "gps" with
  | none => exact wellFormed_after_gps_set _ _ hpres rfl
  | some jv =>
    cases jv with
    | jobj g => exact wellFormed_after_gps_set _ _ hpres (gps_fields_present_ensureAll g)
    | jnull => exact wellFormed_after_gps_set _ _ hpres rfl
    | jbool b => exact wellFormed_after_gps_set _ _ hpres rfl
    | jnum q => exact wellFormed_after_gps_set _ _ hpres rfl
    | jstr s => exact wellFormed_after_gps_set _ _ hpres rfl
    | jarr xs => exact wellFormed_after_gps_set _ _ hpres rfl

theorem merge_defaults_wf (now : Int) (v : Jval) :
    wellFormedB (merge_defaults now v) = true := by
  cases v with
  | jobj st =>
    refine merge_gps_wf _ ?_
    intro k hk
    refine ensureAll_mem_present _ _ ?_
    simp [default_state]
    simp at hk
    tauto
  | jnull => rfl
  | jbool b => rfl
  | jnum q => rfl
  | jstr s => rfl
  | jarr xs => rfl

theorem read_state_wf (fc : FileContent) (now : Int) :
    wellFormedB (read_state fc now) = true := by
  cases fc with
  | missing => rfl
  | malformed => rfl
  | jval v => exact merge_defaults_wf now v

theorem merge_defaults_noop {st : List (String × Jval)} (now : Int)
    (h : wellFormedB st = true) : merge_defaults now (.jobj st) = st := by
  simp only [wellFormedB, Bool.and_eq_true] at h
  obtain ⟨⟨⟨⟨⟨⟨⟨h1, h2⟩, h3⟩, h4⟩, h5⟩, h6⟩, h7⟩, h8⟩ := h
  cases hgv : dictGet st "gps" with
  | none => rw [hgv] at h8; exact absurd h8 (by simp)
  | some jv =>
    cases jv with
    | jobj g =>
      rw [hgv] at h8
      have hall : ensureAll st (default_state now) = st := by
        refine ensureAll_noop _ _ ?_
        intro kv hkv
        simp [default_state] at hkv
        rcases hkv with rfl | rfl | rfl | rfl | rfl | rfl | rfl | rfl
        · exact h1
        · exact h2
        · exact h3
        · exact h4
        · exact h5
        · exact h6
        · exact h7
        · show (dictGet st "gps").isSome = true
          rw [hgv]; rfl
      have hgnoop : ensureAll g gps_default = g := by
        simp only [gps_fields_present, Bool.and_eq_true] at h8
        obtain ⟨⟨⟨⟨⟨⟨g1, g2⟩, g3⟩, g4⟩, g5⟩, g6⟩, g7⟩ := h8
        refine ensureAll_noop _ _ ?_
        intro kv hkv
        simp [gps_default] at hkv
        rcases hkv with rfl | rfl | rfl | rfl | rfl | rfl | rfl
        · exact g1
        · exact g2
        · exact g3
        · exact g4
        · exact g5
        · exact g6
        · exact g7
      show merge_gps (ensureAll st (default_state now)) = st
      unfold merge_gps
      rw [hall, hgv]
      show dictSet st "gps" (Jval.jobj (ensureAll g gps_default)) = st
      rw [hgnoop]
      exact dictSet_self hgv
    | jnull => rw [hgv] at h8; exact absurd h8 (by simp)
    | jbool b => rw [hgv] at h8; exact absurd h8 (by simp)
    | jnum q => rw [hgv] at h8; exact absurd h8 (by simp)
    | jstr s => rw [hgv] at h8; exact absurd h8 (by simp)
    | jarr xs => rw [hgv] at h8; exact absurd h8 (by simp)

theorem wellFormedB_dictSet {st : List (String × Jval)} {k : String} {v : Jval}
    (h : wellFormedB st = true) (hk : k ≠ "gps") :
    wellFormedB (dictSet st k v) = true := by
  simp only [wellFormedB, Bool.and_eq_true] at h ⊢
  obtain ⟨⟨⟨⟨⟨⟨⟨h1, h2⟩, h3⟩, h4⟩, h5⟩, h6⟩, h7⟩, h8⟩ := h
  refine ⟨⟨⟨⟨⟨⟨⟨?_, ?_⟩, ?_⟩, ?_⟩, ?_⟩, ?_⟩, ?_⟩, ?_⟩
  · rw [dictGet_dictSet]; exact isSome_ite_some h1
  · rw [dictGet_dictSet]; exact isSome_ite_some h2
  · rw [dictGet_dictSet]; exact isSome_ite_some h3
  · rw [dictGet_dictSet]; exact isSome_ite_some h4
  · rw [dictGet_dictSet]; exact isSome_ite_some h5
  · rw [dictGet_dictSet]; exact isSome_ite_some h6
  · rw [dictGet_dictSet]; exact isSome_ite_some h7
  · rw [dictGet_dictSet, if_neg (fun hh => hk hh.symm)]
    exact h8

theorem read_after_write {st : List (String × Jval)} (now now₂ : Int)
    (h : wellFormedB st = true) :
    read_state (write_state now st) now₂ = st := by
  show merge_defaults now₂ (.jobj (merge_defaults now (.jobj st))) = st
  rw [merge_defaults_noop now h, merge_defaults_noop now₂ h]

/-! ## set_state lemmas -/

theorem set_state_record_wf (fc : FileContent) (now : Int) (ns : String)
    (mid : Option String) (prof : Option Jval) (warns : Option (List String))
    (err : Option String) (pidArg : PidArg) :
    wellFormedB (set_state_record fc now ns mid prof warns err pidArg) = true := by
  unfold set_state_record
  cases pidArg with
  | unchanged =>
    exact wellFormedB_dictSet (wellFormedB_dictSet (wellFormedB_dictSet (wellFormedB_dictSet
      (wellFormedB_dictSet (wellFormedB_dictSet (read_state_wf fc now)
        (by decide)) (by decide)) (by decide)) (by decide)) (by decide)) (by decide)
  | set v =>
    exact wellFormedB_dictSet (wellFormedB_dictSet (wellFormedB_dictSet (wellFormedB_dictSet
      (wellFormedB_dictSet (wellFormedB_dictSet (wellFormedB_dictSet (read_state_wf fc now)
        (by decide)) (by decide)) (by decide)) (by decide)) (by decide)) (by decide)) (by decide)

theorem set_state_read (fc : FileContent) (now now₂ : Int) (ns : String)
    (mid : Option String) (prof : Option Jval) (warns : Option (List String))
    (err : Option String) (pidArg : PidArg) :
    read_state (set_state fc now ns mid prof warns err pidArg) now₂ =
      set_state_record fc now ns mid prof warns err pidArg :=
  read_after_write now now₂ (set_state_record_wf fc now ns mid prof warns err pidArg)

theorem set_state_record_fields (fc : FileContent) (now : Int) (ns : String)
    (mid : Option String) (prof : Option Jval) (warns : Option (List String))
    (err : Option String) (pidArg : PidArg) :
    dictGet (set_state_record fc now ns mid prof warns err pidArg) "state" = some (.jstr ns) ∧
    dictGet (set_state_record fc now ns mid prof warns err pidArg) "since_epoch" = some (.jnum (now : Rat)) ∧
    dictGet (set_state_record fc now ns mid prof warns err pidArg) "mission_id" = some (optStrJ mid) ∧
    dictGet (set_state_record fc now ns mid prof warns err pidArg) "profile" = some (prof.getD .jnull) ∧
    dictGet (set_state_record fc now ns mid prof warns err pidArg) "warnings" = some (.jarr ((warns.getD []).map Jval.jstr)) ∧
    dictGet (set_state_record fc now ns mid prof warns err pidArg) "error" = some (optStrJ err) ∧
    (∀ v, pidArg = .set v → dictGet (set_state_record fc now ns mid prof warns err pidArg) "pid" = some (optIntJ v)) := by
  cases pidArg with
  | unchanged =>
    refine ⟨?_, ?_, ?_, ?_, ?_, ?_, fun v h => nomatch h⟩ <;>
      simp [set_state_record, dictGet_dictSet]
  | set v =>
    refine ⟨?_, ?_, ?_, ?_, ?_, ?_, ?_⟩
    · simp [set_state_record, dictGet_dictSet]
    · simp [set_state_record, dictGet_dictSet]
    · simp [set_state_record, dictGet_dictSet]
    · simp [set_state_record, dictGet_dictSet]
    · simp [set_state_record, dictGet_dictSet]
    · simp [set_state_record, dictGet_dictSet]
    · intro v' h
      injection h with h
      subst h
      simp [set_state_record, dictGet_dictSet]

theorem set_state_w_pidfile (w : World) (now : Int) (ns : String) (mid : Option String)
    (prof : Option Jval) (warns : Option (List String)) (err : Option String) (pidArg : PidArg) :
    (set_state_w w now ns mid prof warns err pidArg).pidfile = w.pidfile := rfl

theorem set_state_w_statefile (w : World) (now : Int) (ns : String) (mid : Option String)
    (prof : Option Jval) (warns : Option (List String)) (err : Option String) (pidArg : PidArg) :
    (set_state_w w now ns mid prof warns err pidArg).statefile =
      set_state w.statefile now ns mid prof warns err pidArg := rfl

theorem set_state_w_stateLog (w : World) (now : Int) (ns : String) (mid : Option String)
    (prof : Option Jval) (warns : Option (List String)) (err : Option String) (pidArg : PidArg) :
    (set_state_w w now ns mid prof warns err pidArg).stateLog.length = w.stateLog.length + 1 := by
  show (w.stateLog ++ [_]).length = w.stateLog.length + 1
  simp

/-! ## is_running structural lemmas -/

theorem try_reap_frame (w : World) (pid : Int) :
    (try_reap w pid).pidfile = w.pidfile ∧ (try_reap w pid).statefile = w.statefile ∧
    (try_reap w pid).stateLog = w.stateLog ∧ (try_reap w pid).missions = w.missions ∧
    (try_reap w pid).signals = w.signals := by
  unfold try_reap
  by_cases h : w.children pid = true
  · rw [if_pos h]
    cases hp : w.procs pid <;> exact ⟨rfl, rfl, rfl, rfl, rfl⟩
  · rw [if_neg h]
    exact ⟨rfl, rfl, rfl, rfl, rfl⟩

theorem is_running_of_pidfile_none {w : World} (h : w.pidfile = none) :
    is_running w = ((false, none), w) := by
  unfold is_running
  rw [h]

theorem is_running_of_pidfile_some {w : World} {c : String} (h : w.pidfile = some c) :
    is_running w = (match parseIntStr c with
      | none => ((false, none), { w with pidfile := none })
      | some pid => is_running_checked w pid) := by
  unfold is_running
  rw [h]

theorem is_running_checked_frame (w : World) (pid : Int) :
    ((is_running_checked w pid).2).statefile = w.statefile ∧
    ((is_running_checked w pid).2).stateLog = w.stateLog ∧
    ((is_running_checked w pid).2).missions = w.missions ∧
    ((is_running_checked w pid).2).signals = w.signals := by
  unfold is_running_checked
  by_cases hz : (proc_state w pid == some "Z") = true
  · rw [if_pos hz]
    obtain ⟨-, h2, h3, h4, h5⟩ := try_reap_frame w pid
    exact ⟨h2, h3, h4, h5⟩
  · rw [if_neg hz]
    by_cases hr : (pid_running_non_zombie w pid && pid_is_logger w pid) = true
    · rw [if_pos hr]
      exact ⟨rfl, rfl, rfl, rfl⟩
    · rw [if_neg hr]
      exact ⟨rfl, rfl, rfl, rfl⟩

theorem is_running_frame (w : World) :
    ((is_running w).2).statefile = w.statefile ∧ ((is_running w).2).stateLog = w.stateLog ∧
    ((is_running w).2).missions = w.missions ∧ ((is_running w).2).signals = w.signals := by
  cases hp : w.pidfile with
  | none => rw [is_running_of_pidfile_none hp]; exact ⟨rfl, rfl, rfl, rfl⟩
  | some c =>
    rw [is_running_of_pidfile_some hp]
    cases hc : parseIntStr c with
    | none => exact ⟨rfl, rfl, rfl, rfl⟩
    | some pid => exact is_running_checked_frame w pid

/-! ## Further merge helpers -/

theorem merge_gps_other {k : String} (h : k ≠ "gps") (st1 : List (String × Jval)) :
    dictGet (merge_gps st1) k = dictGet st1 k := by
  unfold merge_gps
  cases hg : dictGet st1 "gps" with
  | none => rw [dictGet_dictSet, if_neg h]
  | some jv =>
    cases jv <;> rw [dictGet_dictSet, if_neg h]

theorem wellFormedB_dictSet_gps {st g : List (String × Jval)}
    (h : wellFormedB st = true) (hg : gps_fields_present g = true) :
    wellFormedB (dictSet st "gps" (.jobj g)) = true := by
  simp only [wellFormedB, Bool.and_eq_true] at h ⊢
  obtain ⟨⟨⟨⟨⟨⟨⟨h1, h2⟩, h3⟩, h4⟩, h5⟩, h6⟩, h7⟩, h8⟩ := h
  refine ⟨⟨⟨⟨⟨⟨⟨?_, ?_⟩, ?_⟩, ?_⟩, ?_⟩, ?_⟩, ?_⟩, ?_⟩
  · rw [dictGet_dictSet]; exact isSome_ite_some h1
  · rw [dictGet_dictSet]; exact isSome_ite_some h2
  · rw [dictGet_dictSet]; exact isSome_ite_some h3
  · rw [dictGet_dictSet]; exact isSome_ite_some h4
  · rw [dictGet_dictSet]; exact isSome_ite_some h5
  · rw [dictGet_dictSet]; exact isSome_ite_some h6
  · rw [dictGet_dictSet]; exact isSome_ite_some h7
  · rw [dictGet_dictSet, if_pos rfl]
    exact hg

theorem default_keys_nodup (now : Int) : ((default_state now).map Prod.fst).Nodup := by
  show (["state", "since_epoch", "mission_id", "profile", "warnings", "error", "pid", "gps"] : List String).Nodup
  decide

/-! ## Claim C8 -/

/-- C8: for every well-formed DeviceState record (all schema fields present),
`write_state` followed by `read_state` with no concurrent writer returns a
record equal to the one written, field for field, including the order of the
warnings list and the nested structure of profile (the model compares the
whole association lists, which fixes field order, warnings order and the
profile value). -/
theorem device_state_roundtrip (st : List (String × Jval)) (now now₂ : Int)
    (h : wellFormedB st = true) :
    read_state (write_state now st) now₂ = st :=
  read_after_write now now₂ h

/-- Witness for C8 at a concrete well-formed record. -/
theorem device_state_roundtrip_witness :
    wellFormedB (rec_running 5 "mA") = true ∧
    read_state (write_state 100 (rec_running 5 "mA")) 200 = rec_running 5 "mA" :=
  ⟨rfl, device_state_roundtrip (rec_running 5 "mA") 100 200 rfl⟩

/-! ## Claim C9 -/

/-- C9: for every possible content of the state file (missing, malformed
JSON, a non-object JSON value, or an object missing any schema fields),
`read_state` never raises (it is a total function here) and returns a record
in which every schema field is present, with missing content replaced by the
default value, and the full default state when the file is absent or
corrupt. -/
theorem read_state_total_and_defaults :
    (∀ fc now, wellFormedB (read_state fc now) = true) ∧
    (∀ now, read_state .missing now = default_state now) ∧
    (∀ now, read_state .malformed now = default_state now) ∧
    (∀ now v, isObj v = false → read_state (.jval v) now = default_state now) ∧
    (∀ now (st : List (String × Jval)) k, k ∈ (default_state now).map Prod.fst →
      dictGet st k = none →
      dictGet (read_state (.jval (.jobj st)) now) k = dictGet (default_state now) k) := by
  refine ⟨read_state_wf, fun _ => rfl, fun _ => rfl, ?_, ?_⟩
  · intro now v h
    cases v with
    | jobj st => simp [isObj] at h
    | jnull => rfl
    | jbool b => rfl
    | jnum q => rfl
    | jstr s => rfl
    | jarr xs => rfl
  · intro now st k hk habs
    show dictGet (merge_gps (ensureAll st (default_state now))) k = dictGet (default_state now) k
    simp [default_state] at hk
    rcases hk with rfl | rfl | rfl | rfl | rfl | rfl | rfl | rfl
    · rw [merge_gps_other (by decide),
        @ensureAll_absent_mem "state" (Jval.jstr "IDLE") _ _ (default_keys_nodup now) (by simp [default_state]) habs]
      rfl
    · rw [merge_gps_other (by decide),
        @ensureAll_absent_mem "since_epoch" (Jval.jnum (now : Rat)) _ _ (default_keys_nodup now) (by simp [default_state]) habs]
      rfl
    · rw [merge_gps_other (by decide),
        @ensureAll_absent_mem "mission_id" (Jval.jnull) _ _ (default_keys_nodup now) (by simp [default_state]) habs]
      rfl
    · rw [merge_gps_other (by decide),
        @ensureAll_absent_mem "profile" (Jval.jnull) _ _ (default_keys_nodup now) (by simp [default_state]) habs]
      rfl
    · rw [merge_gps_other (by decide),
        @ensureAll_absent_mem "warnings" (Jval.jarr []) _ _ (default_keys_nodup now) (by simp [default_state]) habs]
      rfl
    · rw [merge_gps_other (by decide),
        @ensureAll_absent_mem "error" (Jval.jnull) _ _ (default_keys_nodup now) (by simp [default_state]) habs]
      rfl
    · rw [merge_gps_other (by decide),
        @ensureAll_absent_mem "pid" (Jval.jnull) _ _ (default_keys_nodup now) (by simp [default_state]) habs]
      rfl
    · have hgps : dictGet (ensureAll st (default_state now)) "gps" = some (.jobj gps_default) :=
        ensureAll_absent_mem _ _ (default_keys_nodup now) (by simp [default_state]) habs
      unfold merge_gps
      rw [hgps]
      show dictGet (dictSet (ensureAll st (default_state now)) "gps"
        (.jobj (ensureAll gps_default gps_default))) "gps" = dictGet (default_state now) "gps"
      rw [dictGet_dictSet, if_pos rfl]
      rfl

/-- Witness for C9: a record missing the `"pid"` field gets it back-filled
with the default, and a missing file reads as a fully-formed record. -/
theorem read_state_total_and_defaults_witness :
    dictGet (read_state (.jval (.jobj [("mission_id", Jval.jstr "mZ")])) 100) "pid" =
      dictGet (default_state 100) "pid" ∧
    wellFormedB (read_state .missing 100) = true :=
  ⟨read_state_total_and_defaults.2.2.2.2 100 [("mission_id", Jval.jstr "mZ")] "pid"
      (by decide) rfl,
   read_state_total_and_defaults.1 .missing 100⟩

/-! ## Claim C10 -/

/-- C10: for every well-formed stored DeviceState, `set_gps_status(gps)`
with a gps snapshot (an object carrying the gps schema fields) replaces only
the `"gps"` field of the stored record with the given snapshot and leaves
every other field — state, since_epoch, mission_id, profile, warnings,
error, pid — unchanged. -/
theorem set_gps_status_frame (st g : List (String × Jval)) (now now₂ : Int)
    (hst : wellFormedB st = true) (hg : gps_fields_present g = true) :
    dictGet (read_state (set_gps_status (.jval (.jobj st)) now (.jobj g)) now₂) "gps" =
      some (.jobj g) ∧
    ∀ k, k ≠ "gps" →
      dictGet (read_state (set_gps_status (.jval (.jobj st)) now (.jobj g)) now₂) k =
        dictGet st k := by
  have hread : read_state (.jval (.jobj st)) now = st := merge_defaults_noop now hst
  have hwf : wellFormedB (dictSet st "gps" (.jobj g)) = true := wellFormedB_dictSet_gps hst hg
  have hrw : read_state (set_gps_status (.jval (.jobj st)) now (.jobj g)) now₂ =
      dictSet st "gps" (.jobj g) := by
    unfold set_gps_status
    rw [hread]
    exact read_after_write now now₂ hwf
  rw [hrw]
  constructor
  · rw [dictGet_dictSet, if_pos rfl]
  · intro k hk
    rw [dictGet_dictSet, if_neg hk]

/-- Witness for C10 at a concrete record and snapshot. -/
theorem set_gps_status_frame_witness :
    wellFormedB (rec_running 5 "mA") = true ∧ gps_fields_present gps_snap = true ∧
    dictGet (read_state (set_gps_status (.jval (.jobj (rec_running 5 "mA"))) 100
      (.jobj gps_snap)) 200) "gps" = some (.jobj gps_snap) ∧
    dictGet (read_state (set_gps_status (.jval (.jobj (rec_running 5 "mA"))) 100
      (.jobj gps_snap)) 200) "state" = dictGet (rec_running 5 "mA") "state" :=
  ⟨rfl, rfl,
   (set_gps_status_frame (rec_running 5 "mA") gps_snap 100 200 rfl rfl).1,
   (set_gps_status_frame (rec_running 5 "mA") gps_snap 100 200 rfl rfl).2 "state" (by decide)⟩

/-! ## Probe evaluation lemmas -/

theorem proc_state_zombie {w : World} {pid : Int} (h : w.procs pid = .zombie) :
    proc_state w pid = some "Z" := by
  unfold proc_state
  rw [h]

theorem proc_state_absent {w : World} {pid : Int} (h : w.procs pid = .absent) :
    proc_state w pid = none := by
  unfold proc_state
  rw [h]

theorem proc_state_alive {w : World} {pid : Int} {cl : String} (h : w.procs pid = .alive cl) :
    proc_state w pid = some "R" := by
  unfold proc_state
  rw [h]

theorem prnz_alive {w : World} {pid : Int} {cl : String} (h : w.procs pid = .alive cl) :
    pid_running_non_zombie w pid = true := by
  unfold pid_running_non_zombie
  rw [proc_state_alive h, h]
  rfl

theorem prnz_absent {w : World} {pid : Int} (h : w.procs pid = .absent) :
    pid_running_non_zombie w pid = false := by
  unfold pid_running_non_zombie
  rw [proc_state_absent h, h]
  rfl

theorem is_running_checked_zombie {w : World} {pid : Int} (h : w.procs pid = .zombie) :
    is_running_checked w pid = ((false, none), { try_reap w pid with pidfile := none }) := by
  have hc : (proc_state w pid == some "Z") = true := by rw [proc_state_zombie h]; rfl
  unfold is_running_checked
  rw [if_pos hc]

theorem is_running_checked_absent {w : World} {pid : Int} (h : w.procs pid = .absent) :
    is_running_checked w pid = ((false, none), { w with pidfile := none }) := by
  have hc : ¬ ((proc_state w pid == some "Z") = true) := by rw [proc_state_absent h]; decide
  have hr : ¬ ((pid_running_non_zombie w pid && pid_is_logger w pid) = true) := by
    rw [prnz_absent h]
    simp
  unfold is_running_checked
  rw [if_neg hc, if_neg hr]

theorem is_running_checked_alive_other {w : World} {pid : Int} {cl : String}
    (h : w.procs pid = .alive cl) (hl : pid_is_logger w pid = false) :
    is_running_checked w pid = ((false, none), { w with pidfile := none }) := by
  have hc : ¬ ((proc_state w pid == some "Z") = true) := by rw [proc_state_alive h]; decide
  have hr : ¬ ((pid_running_non_zombie w pid && pid_is_logger w pid) = true) := by
    rw [prnz_alive h, hl]
    decide
  unfold is_running_checked
  rw [if_neg hc, if_neg hr]

theorem is_running_checked_alive_logger {w : World} {pid : Int} {cl : String}
    (h : w.procs pid = .alive cl) (hl : pid_is_logger w pid = true) :
    is_running_checked w pid = ((true, some pid), w) := by
  have hc : ¬ ((proc_state w pid == some "Z") = true) := by rw [proc_state_alive h]; decide
  have hr : (pid_running_non_zombie w pid && pid_is_logger w pid) = true := by
    rw [prnz_alive h, hl]
    rfl
  unfold is_running_checked
  rw [if_neg hc, if_pos hr]

/-! ## Claim C3 -/

/-- C3 (amended): `_is_running()` returns `(false, none)` when the registry
file is missing, when its content does not parse as a PID, when the stored
PID refers to a non-existent or zombie process, and when it refers to a live
process that does not identity-match the logger; in every false case with an
existing registry file the file is removed, and the zombie is additionally
reaped when (and only when) it is a child of the supervisor process.  In the
remaining case — a stored PID whose process is alive and identity-matches —
it returns `(true, pid)` with no side effect. -/
theorem is_running_cases (w : World) :
    (w.pidfile = none → is_running w = ((false, none), w)) ∧
    (∀ c, w.pidfile = some c → parseIntStr c = none →
      is_running w = ((false, none), { w with pidfile := none })) ∧
    (∀ c pid, w.pidfile = some c → parseIntStr c = some pid → w.procs pid = .zombie →
      is_running w = ((false, none), { try_reap w pid with pidfile := none }) ∧
      (w.children pid = true → ((is_running w).2).procs pid = .absent) ∧
      (w.children pid = false → ((is_running w).2).procs pid = .zombie)) ∧
    (∀ c pid, w.pidfile = some c → parseIntStr c = some pid → w.procs pid = .absent →
      is_running w = ((false, none), { w with pidfile := none })) ∧
    (∀ c pid cl, w.pidfile = some c → parseIntStr c = some pid → w.procs pid = .alive cl →
      pid_is_logger w pid = false →
      is_running w = ((false, none), { w with pidfile := none })) ∧
    (∀ c pid cl, w.pidfile = some c → parseIntStr c = some pid → w.procs pid = .alive cl →
      pid_is_logger w pid = true → is_running w = ((true, some pid), w)) := by
  refine ⟨fun h => is_running_of_pidfile_none h, ?_, ?_, ?_, ?_, ?_⟩
  · intro c hp hc
    rw [is_running_of_pidfile_some hp, hc]
  · intro c pid hp hc hz
    have heq : is_running w = ((false, none), { try_reap w pid with pidfile := none }) := by
      rw [is_running_of_pidfile_some hp, hc]
      exact is_running_checked_zombie hz
    refine ⟨heq, ?_, ?_⟩
    · intro hch
      rw [heq]
      show (try_reap w pid).procs pid = .absent
      unfold try_reap
      rw [if_pos hch, hz]
      show (if pid = pid then ProcStatus.absent else w.procs pid) = .absent
      rw [if_pos rfl]
    · intro hch
      rw [heq]
      show (try_reap w pid).procs pid = .zombie
      unfold try_reap
      rw [hch]
      show w.procs pid = .zombie
      exact hz
  · intro c pid hp hc ha
    rw [is_running_of_pidfile_some hp, hc]
    exact is_running_checked_absent ha
  · intro c pid cl hp hc ha hl
    rw [is_running_of_pidfile_some hp, hc]
    exact is_running_checked_alive_other ha hl
  · intro c pid cl hp hc ha hl
    rw [is_running_of_pidfile_some hp, hc]
    exact is_running_checked_alive_logger ha hl

/-- Counterexample to C3 as stated: with the registry holding pid 4, the
process at 4 a zombie but NOT a child of the supervisor (e.g. after a
supervisor restart), `_is_running()` returns `(false, none)` and removes the
registry file — but the process is still a zombie afterwards: it was not
reaped, against the claim's unconditional "the process is additionally
reaped". -/
theorem is_running_zombie_not_reaped_cex :
    (is_running w_c3).1 = (false, none) ∧ ((is_running w_c3).2).pidfile = none ∧
    ((is_running w_c3).2).procs 4 = .zombie :=
  ⟨rfl, rfl, rfl⟩

/-- Witness for C3 (amended) at a concrete world whose zombie IS a child:
there the reap does happen. -/
theorem is_running_cases_witness :
    is_running w_c3b = ((false, none), { try_reap w_c3b 4 with pidfile := none }) ∧
    ((is_running w_c3b).2).procs 4 = .absent := by
  have h := (is_running_cases w_c3b).2.2.1 "4" 4 rfl rfl rfl
  exact ⟨h.1, h.2.1 rfl⟩

/-! ## Claim C1 -/

/-- C1: whenever the registry PID refers to a process that is alive, not a
zombie, and identity-matches the mission logger, `start_mission` fails with
HTTP 409 and the error message `Mission already running (pid=<n>)`, and the
returned world is exactly the input world: no DeviceState write, no registry
write, no new mission directory, no state transition logged. -/
theorem start_mission_already_running (w : World) (payload : Payload) (mid : String)
    (newPid : Int) (now : Int) (spawnOk : Bool) (c : String) (pid : Int) (cl : String)
    (hp : w.pidfile = some c) (hc : parseIntStr c = some pid)
    (ha : w.procs pid = .alive cl) (hl : pid_is_logger w pid = true) :
    start_mission w payload mid newPid now spawnOk =
      (.alreadyRunning 409 ("Mission already running (pid=" ++ intToStr pid ++ ")"), w) := by
  have hrun : is_running w = ((true, some pid), w) := by
    rw [is_running_of_pidfile_some hp, hc]
    exact is_running_checked_alive_logger ha hl
  unfold start_mission
  rw [hrun]
  rfl

/-- Witness for C1: concrete world with an alive, identity-matching pid 42. -/
theorem start_mission_already_running_witness :
    start_mission w_c1 payload0 "m2" 99 1000 true =
      (.alreadyRunning 409 "Mission already running (pid=42)", w_c1) :=
  start_mission_already_running w_c1 payload0 "m2" 99 1000 true "42" 42 logger_cmdline
    rfl rfl rfl rfl

/-! ## Claim C2 -/

/-- C2: for every successful start (no mission running, spawn succeeds),
before the call returns the registry holds exactly the new child's PID, the
DeviceState is ARMING with that PID, the new mission id and the supplied
profile, and exactly one DeviceState transition was performed. -/
theorem start_mission_success (w : World) (payload : Payload) (mid : String)
    (newPid : Int) (now now₂ : Int)
    (h : ((is_running w).1).1 = false) :
    (start_mission w payload mid newPid now true).1 =
      .started newPid mid (profile_json payload) ∧
    ((start_mission w payload mid newPid now true).2).pidfile = some (intToStr newPid) ∧
    dictGet (read_state ((start_mission w payload mid newPid now true).2).statefile now₂)
      "state" = some (.jstr "ARMING") ∧
    dictGet (read_state ((start_mission w payload mid newPid now true).2).statefile now₂)
      "pid" = some (.jnum (newPid : Rat)) ∧
    dictGet (read_state ((start_mission w payload mid newPid now true).2).statefile now₂)
      "mission_id" = some (.jstr mid) ∧
    dictGet (read_state ((start_mission w payload mid newPid now true).2).statefile now₂)
      "profile" = some (profile_json payload) ∧
    ((start_mission w payload mid newPid now true).2).stateLog.length =
      w.stateLog.length + 1 := by
  rcases hie : is_running w with ⟨⟨r, po⟩, w'⟩
  have hr : r = false := by
    rw [hie] at h
    exact h
  subst hr
  have hframe := is_running_frame w
  rw [hie] at hframe
  obtain ⟨hsf, hsl, -, -⟩ := hframe
  have hmain : start_mission w payload mid newPid now true =
      start_mission_go w' payload mid newPid now true := by
    unfold start_mission
    rw [hie]
  rw [hmain]
  have hstf : (start_mission_go w' payload mid newPid now true).2.statefile =
      set_state w'.statefile now "ARMING" (some mid) (some (profile_json payload))
        (some []) none (.set (some newPid)) := rfl
  obtain ⟨f1, f2, f3, f4, f5, f6, f7⟩ :=
    set_state_record_fields w'.statefile now "ARMING" (some mid)
      (some (profile_json payload)) (some []) none (.set (some newPid))
  have hreadw : read_state (start_mission_go w' payload mid newPid now true).2.statefile now₂ =
      set_state_record w'.statefile now "ARMING" (some mid)
        (some (profile_json payload)) (some []) none (.set (some newPid)) := by
    rw [hstf]
    exact set_state_read w'.statefile now now₂ "ARMING" (some mid)
      (some (profile_json payload)) (some []) none (.set (some newPid))
  refine ⟨rfl, rfl, ?_, ?_, ?_, ?_, ?_⟩
  · rw [hreadw]; exact f1
  · rw [hreadw]; exact f7 (some newPid) rfl
  · rw [hreadw]; exact f3
  · rw [hreadw]; exact f4
  · have hsl' : w'.stateLog = w.stateLog := hsl
    show (w'.stateLog ++ [_]).length = w.stateLog.length + 1
    simp [hsl']

/-- Witness for C2: a start from the empty world. -/
theorem start_mission_success_witness :
    (start_mission base_world payload0 "m1" 77 1000 true).1 =
      .started 77 "m1" (profile_json payload0) ∧
    ((start_mission base_world payload0 "m1" 77 1000 true).2).pidfile = some (intToStr 77) ∧
    dictGet (read_state ((start_mission base_world payload0 "m1" 77 1000 true).2).statefile 2000)
      "state" = some (.jstr "ARMING") ∧
    dictGet (read_state ((start_mission base_world payload0 "m1" 77 1000 true).2).statefile 2000)
      "pid" = some (.jnum (77 : Rat)) ∧
    dictGet (read_state ((start_mission base_world payload0 "m1" 77 1000 true).2).statefile 2000)
      "mission_id" = some (.jstr "m1") ∧
    dictGet (read_state ((start_mission base_world payload0 "m1" 77 1000 true).2).statefile 2000)
      "profile" = some (profile_json payload0) ∧
    ((start_mission base_world payload0 "m1" 77 1000 true).2).stateLog.length =
      base_world.stateLog.length + 1 := by
  have h := start_mission_success base_world payload0 "m1" 77 1000 2000 rfl
  exact h

/-! ## Claim C6 -/

theorem stop_mission_not_running (w : World) (now : Int)
    (h : ((is_running w).1).1 = false) :
    (stop_mission w now).1 = .notRunning 404 "No running mission" ∧
    (stop_mission w now).2.pidfile = none ∧
    ∀ now₂,
      dictGet (read_state (stop_mission w now).2.statefile now₂) "state" =
        some (.jstr "IDLE") ∧
      dictGet (read_state (stop_mission w now).2.statefile now₂) "pid" = some Jval.jnull := by
  rcases hie : is_running w with ⟨⟨r, po⟩, w'⟩
  have hr : r = false := by rw [hie] at h; exact h
  subst hr
  have hstop : stop_mission w now = (.notRunning 404 "No running mission",
      set_state_w { w' with pidfile := none } now "IDLE" none none (some []) none
        (.set none)) := by
    unfold stop_mission
    rw [hie]
  rw [hstop]
  refine ⟨rfl, rfl, ?_⟩
  intro now₂
  have hread : read_state (set_state_w { w' with pidfile := none } now "IDLE" none none
      (some []) none (.set none)).statefile now₂ =
      set_state_record w'.statefile now "IDLE" none none (some []) none (.set none) :=
    set_state_read w'.statefile now now₂ "IDLE" none none (some []) none (.set none)
  rw [hread]
  obtain ⟨f1, -, -, -, -, -, f7⟩ :=
    set_state_record_fields w'.statefile now "IDLE" none none (some []) none (.set none)
  exact ⟨f1, f7 none rfl⟩

theorem abort_mission_not_running (w : World) (now : Int)
    (h : ((is_running w).1).1 = false) :
    (abort_mission w now).1 = .notRunning 404 "No running mission" ∧
    (abort_mission w now).2.pidfile = none ∧
    ∀ now₂,
      dictGet (read_state (abort_mission w now).2.statefile now₂) "state" =
        some (.jstr "IDLE") ∧
      dictGet (read_state (abort_mission w now).2.statefile now₂) "pid" = some Jval.jnull := by
  rcases hie : is_running w with ⟨⟨r, po⟩, w'⟩
  have hr : r = false := by rw [hie] at h; exact h
  subst hr
  have hstop : abort_mission w now = (.notRunning 404 "No running mission",
      set_state_w { w' with pidfile := none } now "IDLE" none none (some []) none
        (.set none)) := by
    unfold abort_mission
    rw [hie]
  rw [hstop]
  refine ⟨rfl, rfl, ?_⟩
  intro now₂
  have hread : read_state (set_state_w { w' with pidfile := none } now "IDLE" none none
      (some []) none (.set none)).statefile now₂ =
      set_state_record w'.statefile now "IDLE" none none (some []) none (.set none) :=
    set_state_read w'.statefile now now₂ "IDLE" none none (some []) none (.set none)
  rw [hread]
  obtain ⟨f1, -, -, -, -, -, f7⟩ :=
    set_state_record_fields w'.statefile now "IDLE" none none (some []) none (.set none)
  exact ⟨f1, f7 none rfl⟩

/-- C6: for every sequence of stop/abort calls made while no mission is
running, every call returns the NotRunning result (HTTP 404, error "No
running mission"), and after each call DeviceState is IDLE with the pid
cleared and the registry file absent; no call raises (all are total) and no
call changes the outcome of later calls. -/
theorem stop_abort_idempotent_not_running (w : World) (ops : List (StopOp × Int)) :
    ((is_running w).1).1 = false →
    ∀ rw ∈ run_stop_ops w ops,
      rw.1 = .notRunning 404 "No running mission" ∧
      rw.2.pidfile = none ∧
      ∀ now₂,
        dictGet (read_state rw.2.statefile now₂) "state" = some (.jstr "IDLE") ∧
        dictGet (read_state rw.2.statefile now₂) "pid" = some Jval.jnull := by
  induction ops generalizing w with
  | nil =>
    intro _ rw hrw
    simp [run_stop_ops] at hrw
  | cons hd t ih =>
    obtain ⟨op, now⟩ := hd
    intro h rw hrw
    cases op with
    | stop =>
      have hs := stop_mission_not_running w now h
      have hrun : run_stop_ops w ((StopOp.stop, now) :: t) =
          stop_mission w now :: run_stop_ops (stop_mission w now).2 t := rfl
      rw [hrun] at hrw
      rcases List.mem_cons.mp hrw with heq | hmem
      · subst heq
        exact hs
      · have h2 : ((is_running (stop_mission w now).2).1).1 = false := by
          rw [is_running_of_pidfile_none hs.2.1]
        exact ih (stop_mission w now).2 h2 rw hmem
    | abort =>
      have hs := abort_mission_not_running w now h
      have hrun : run_stop_ops w ((StopOp.abort, now) :: t) =
          abort_mission w now :: run_stop_ops (abort_mission w now).2 t := rfl
      rw [hrun] at hrw
      rcases List.mem_cons.mp hrw with heq | hmem
      · subst heq
        exact hs
      · have h2 : ((is_running (abort_mission w now).2).1).1 = false := by
          rw [is_running_of_pidfile_none hs.2.1]
        exact ih (abort_mission w now).2 h2 rw hmem

/-- Witness for C6: the first call of a concrete stop-abort sequence on the
empty world. -/
theorem stop_abort_idempotent_witness :
    (stop_mission base_world 10).1 = .notRunning 404 "No running mission" ∧
    (stop_mission base_world 10).2.pidfile = none ∧
    dictGet (read_state (stop_mission base_world 10).2.statefile 30) "state" =
      some (.jstr "IDLE") := by
  have h := stop_abort_idempotent_not_running base_world
    [(StopOp.stop, 10), (StopOp.abort, 20)] rfl (stop_mission base_world 10)
    (List.mem_cons_self _ _)
  exact ⟨h.1, h.2.1, (h.2.2 30).1⟩

/-! ## Claim C4 -/

theorem cleanup_statefile (w : World) (pid : Int) :
    (cleanup_pidfile_if_matches w pid).statefile = w.statefile := by
  unfold cleanup_pidfile_if_matches
  cases hp : w.pidfile with
  | none => rfl
  | some c =>
    show (if pstrip c = intToStr pid then { w with pidfile := none } else w).statefile =
      w.statefile
    by_cases h : pstrip c = intToStr pid
    · rw [if_pos h]
    · rw [if_neg h]

theorem cleanup_of_match {w : World} {pid : Int} {c : String}
    (hp : w.pidfile = some c) (h : pstrip c = intToStr pid) :
    cleanup_pidfile_if_matches w pid = { w with pidfile := none } := by
  unfold cleanup_pidfile_if_matches
  rw [hp]
  show (if pstrip c = intToStr pid then { w with pidfile := none } else w) =
    { w with pidfile := none }
  rw [if_pos h]

theorem cleanup_of_nomatch {w : World} {pid : Int} {c : String}
    (hp : w.pidfile = some c) (h : ¬ pstrip c = intToStr pid) :
    cleanup_pidfile_if_matches w pid = w := by
  unfold cleanup_pidfile_if_matches
  rw [hp]
  show (if pstrip c = intToStr pid then { w with pidfile := none } else w) = w
  rw [if_neg h]

theorem cleanup_of_none {w : World} {pid : Int} (hp : w.pidfile = none) :
    cleanup_pidfile_if_matches w pid = w := by
  unfold cleanup_pidfile_if_matches
  rw [hp]

theorem reap_should_fix_true {st : List (String × Jval)} {pid : Int} {mid : String}
    (hpid : dictGet st "pid" = some (.jnum (pid : Rat)))
    (hmid : dictGet st "mission_id" = some (.jstr mid))
    (hst : dictGet st "state" = some (.jstr "ARMING") ∨
           dictGet st "state" = some (.jstr "RUNNING")) :
    reap_should_fix st pid mid = true := by
  unfold reap_should_fix
  rw [hpid, hmid]
  rcases hst with h | h <;> rw [h] <;> simp

theorem reap_fix_state_fires {w : World} {pid : Int} {mid : String} (now : Int)
    (h : reap_should_fix (read_state w.statefile now) pid mid = true) :
    reap_fix_state w pid mid now =
      set_state_w w now "IDLE" none none
        (some ["Mission process ended (reaper cleanup)."]) none (.set none) := by
  unfold reap_fix_state
  rw [if_pos h]

/-- C4 (amended): for every mission whose child has terminated while
DeviceState still shows that child's PID together with that mission's id in
state ARMING or RUNNING, after the Reaper runs DeviceState is IDLE with the
non-empty warnings list `["Mission process ended (reaper cleanup)."]`, the
pid and mission id cleared; and the Reaper clears the registry if and only
if it still references this PID (so in the matching case the registry is
absent afterwards, and a registry naming a different pid is left alone). -/
theorem watch_and_reap_cleanup (w : World) (pid : Int) (mid : String) (now now₂ : Int)
    (hpid : dictGet (read_state w.statefile now) "pid" = some (.jnum (pid : Rat)))
    (hmid : dictGet (read_state w.statefile now) "mission_id" = some (.jstr mid))
    (hst : dictGet (read_state w.statefile now) "state" = some (.jstr "ARMING") ∨
           dictGet (read_state w.statefile now) "state" = some (.jstr "RUNNING")) :
    dictGet (read_state (watch_and_reap w pid mid now).statefile now₂) "state" =
      some (.jstr "IDLE") ∧
    dictGet (read_state (watch_and_reap w pid mid now).statefile now₂) "warnings" =
      some (.jarr [.jstr "Mission process ended (reaper cleanup)."]) ∧
    dictGet (read_state (watch_and_reap w pid mid now).statefile now₂) "pid" =
      some Jval.jnull ∧
    dictGet (read_state (watch_and_reap w pid mid now).statefile now₂) "mission_id" =
      some Jval.jnull ∧
    (∀ c, w.pidfile = some c → pstrip c = intToStr pid →
      (watch_and_reap w pid mid now).pidfile = none) ∧
    (∀ c, w.pidfile = some c → pstrip c ≠ intToStr pid →
      (watch_and_reap w pid mid now).pidfile = some c) := by
  have hw1 : watch_and_reap w pid mid now =
      reap_fix_state (cleanup_pidfile_if_matches
        { w with procs := fun q => if q = pid then ProcStatus.absent else w.procs q } pid)
        pid mid now := rfl
  have hsf : (cleanup_pidfile_if_matches
      { w with procs := fun q => if q = pid then ProcStatus.absent else w.procs q }
      pid).statefile = w.statefile := cleanup_statefile _ pid
  have hfix : reap_should_fix (read_state (cleanup_pidfile_if_matches
      { w with procs := fun q => if q = pid then ProcStatus.absent else w.procs q }
      pid).statefile now) pid mid = true := by
    rw [hsf]
    exact reap_should_fix_true hpid hmid hst
  have hmain : watch_and_reap w pid mid now =
      set_state_w (cleanup_pidfile_if_matches
        { w with procs := fun q => if q = pid then ProcStatus.absent else w.procs q } pid)
        now "IDLE" none none
        (some ["Mission process ended (reaper cleanup)."]) none (.set none) := by
    rw [hw1]
    exact reap_fix_state_fires now hfix
  have hread : read_state (watch_and_reap w pid mid now).statefile now₂ =
      set_state_record (cleanup_pidfile_if_matches
        { w with procs := fun q => if q = pid then ProcStatus.absent else w.procs q }
        pid).statefile now "IDLE" none none
        (some ["Mission process ended (reaper cleanup)."]) none (.set none) := by
    rw [hmain]
    exact set_state_read _ now now₂ "IDLE" none none
      (some ["Mission process ended (reaper cleanup)."]) none (.set none)
  obtain ⟨f1, -, f3, -, f5, -, f7⟩ := set_state_record_fields
    (cleanup_pidfile_if_matches
      { w with procs := fun q => if q = pid then ProcStatus.absent else w.procs q }
      pid).statefile now "IDLE" none none
    (some ["Mission process ended (reaper cleanup)."]) none (.set none)
  refine ⟨?_, ?_, ?_, ?_, ?_, ?_⟩
  · rw [hread]; exact f1
  · rw [hread]; exact f5
  · rw [hread]; exact f7 none rfl
  · rw [hread]; exact f3
  · intro c hp hmatch
    rw [hmain]
    show (cleanup_pidfile_if_matches
      { w with procs := fun q => if q = pid then ProcStatus.absent else w.procs q }
      pid).pidfile = none
    have hcl := @cleanup_of_match
      { w with procs := fun q => if q = pid then ProcStatus.absent else w.procs q }
      pid c hp hmatch
    rw [hcl]
  · intro c hp hmatch
    rw [hmain]
    show (cleanup_pidfile_if_matches
      { w with procs := fun q => if q = pid then ProcStatus.absent else w.procs q }
      pid).pidfile = some c
    have hcl := @cleanup_of_nomatch
      { w with procs := fun q => if q = pid then ProcStatus.absent else w.procs q }
      pid c hp hmatch
    rw [hcl]
    exact hp

/-- Counterexample to C4 as stated: DeviceState shows pid 5 in RUNNING but
with mission id "mA", while the terminated child's Reaper was started for
mission "mB" (and the registry holds "9").  After the Reaper runs, the state
is still RUNNING (not IDLE) and the registry is not empty — the code also
requires the mission id to match, and clears the registry only when it holds
this pid. -/
theorem watch_and_reap_mission_mismatch_cex :
    dictGet (read_state (watch_and_reap w_c4 5 "mB" 100).statefile 100) "state" =
      some (.jstr "RUNNING") ∧
    (watch_and_reap w_c4 5 "mB" 100).pidfile = some "9" :=
  ⟨rfl, rfl⟩

/-- Witness for C4 (amended) at a concrete matching world. -/
theorem watch_and_reap_cleanup_witness :
    dictGet (read_state (watch_and_reap w_c4b 5 "mB" 100).statefile 200) "state" =
      some (.jstr "IDLE") ∧
    dictGet (read_state (watch_and_reap w_c4b 5 "mB" 100).statefile 200) "warnings" =
      some (.jarr [.jstr "Mission process ended (reaper cleanup)."]) ∧
    (watch_and_reap w_c4b 5 "mB" 100).pidfile = none := by
  have h := watch_and_reap_cleanup w_c4b 5 "mB" 100 200 rfl rfl (Or.inr rfl)
  exact ⟨h.1, h.2.1, h.2.2.2.2.1 "5" rfl rfl⟩

/-! ## Claim C5 -/

theorem registry_running_of_none {w : World} (hp : w.pidfile = none) :
    registry_running w = false := by
  unfold registry_running
  rw [hp]

theorem registry_running_of_some {w : World} {c : String} (hp : w.pidfile = some c) :
    registry_running w = (match parseIntStr c with
      | none => false
      | some pid => pid_running_non_zombie w pid) := by
  unfold registry_running
  rw [hp]

theorem status_route_of_none {w : World} (now : Int) (hp : w.pidfile = none) :
    status_route w now = status_finish w now (read_state w.statefile now) false none := by
  unfold status_route
  rw [hp]

theorem status_route_of_some {w : World} {c : String} (now : Int) (hp : w.pidfile = some c) :
    status_route w now = (match parseIntStr c with
      | none => status_finish { w with pidfile := none } now (read_state w.statefile now)
          false none
      | some pid => status_route_checked w now (read_state w.statefile now) pid) := by
  unfold status_route
  rw [hp]

theorem status_overlay_running (st : List (String × Jval)) (running : Bool)
    (pid : Option Int) :
    dictGet (status_overlay st running pid) "running" = some (.jbool running) := by
  unfold status_overlay
  rw [dictGet_dictSet, if_neg (by decide), dictGet_dictSet, if_pos rfl]

theorem status_overlay_pid (st : List (String × Jval)) (running : Bool)
    (pid : Option Int) :
    dictGet (status_overlay st running pid) "pid" =
      some (if running then optIntJ pid else .jnull) := by
  unfold status_overlay
  rw [dictGet_dictSet, if_pos rfl]

theorem status_overlay_other {k : String} (hk1 : k ≠ "pid") (hk2 : k ≠ "running")
    (st : List (String × Jval)) (running : Bool) (pid : Option Int) :
    dictGet (status_overlay st running pid) k = dictGet st k := by
  unfold status_overlay
  rw [dictGet_dictSet, if_neg hk1, dictGet_dictSet, if_neg hk2]

theorem status_finish_stale {w : World} {now : Int} {st : List (String × Jval)}
    {pid : Option Int} (h : claims_active st = true) :
    status_finish w now st false pid =
      (status_overlay (read_state (set_state_w w now "IDLE" none none
          (some ["Stale RUNNING state corrected."]) none (.set none)).statefile now)
        false pid,
       set_state_w w now "IDLE" none none
        (some ["Stale RUNNING state corrected."]) none (.set none)) := by
  unfold status_finish
  rw [h]
  rfl

theorem status_finish_plain {w : World} {now : Int} {st : List (String × Jval)}
    {running : Bool} {pid : Option Int} (h : (claims_active st && !running) = false) :
    status_finish w now st running pid = (status_overlay st running pid, w) := by
  unfold status_finish
  rw [h]
  rfl

theorem status_finish_stale_fields (wb : World) (now : Int) (st : List (String × Jval))
    (pid : Option Int) (h : claims_active st = true) :
    dictGet (status_finish wb now st false pid).1 "running" = some (.jbool false) ∧
    dictGet (status_finish wb now st false pid).1 "pid" = some Jval.jnull ∧
    dictGet (status_finish wb now st false pid).1 "state" = some (.jstr "IDLE") ∧
    dictGet (status_finish wb now st false pid).1 "warnings" =
      some (.jarr [.jstr "Stale RUNNING state corrected."]) := by
  have hroute := @status_finish_stale wb now st pid h
  have hread : read_state (set_state_w wb now "IDLE" none none
      (some ["Stale RUNNING state corrected."]) none (.set none)).statefile now =
      set_state_record wb.statefile now "IDLE" none none
        (some ["Stale RUNNING state corrected."]) none (.set none) :=
    set_state_read wb.statefile now now "IDLE" none none
      (some ["Stale RUNNING state corrected."]) none (.set none)
  obtain ⟨f1, -, -, -, f5, -, -⟩ := set_state_record_fields wb.statefile now "IDLE"
    none none (some ["Stale RUNNING state corrected."]) none (.set none)
  refine ⟨?_, ?_, ?_, ?_⟩
  · simp only [hroute]
    exact status_overlay_running _ _ _
  · simp only [hroute]
    rw [status_overlay_pid]
    rfl
  · simp only [hroute]
    rw [status_overlay_other (by decide) (by decide), hread]
    exact f1
  · simp only [hroute]
    rw [status_overlay_other (by decide) (by decide), hread]
    exact f5

theorem status_finish_plain_fields (wb : World) (now : Int) (st : List (String × Jval))
    (running : Bool) (pid : Option Int) (h : (claims_active st && !running) = false) :
    dictGet (status_finish wb now st running pid).1 "running" = some (.jbool running) ∧
    dictGet (status_finish wb now st running pid).1 "pid" =
      some (if running then optIntJ pid else .jnull) := by
  have hroute := @status_finish_plain wb now st running pid h
  constructor
  · simp only [hroute]
    exact status_overlay_running _ _ _
  · simp only [hroute]
    exact status_overlay_pid _ _ _

set_option maxHeartbeats 1000000 in
/-- C5 (amended): `GET /status` re-derives `running`/`pid` from the registry
rather than from the stored DeviceState, but its liveness test is only
"alive and not a zombie" — the command-line identity of the process is NOT
checked: `running` is true exactly when the registry holds a parseable PID
whose process is alive and non-zombie; `pid` is reported only when running;
and a stored ARMING/RUNNING state is corrected to IDLE with the stale-state
warning exactly when that weaker `running` is false. -/
theorem status_running_characterization (w : World) (now : Int) :
    dictGet (status_route w now).1 "running" = some (.jbool (registry_running w)) ∧
    (registry_running w = false →
      dictGet (status_route w now).1 "pid" = some Jval.jnull) ∧
    (registry_running w = true →
      dictGet (status_route w now).1 "pid" = some (optIntJ (registry_pid w))) ∧
    (registry_running w = false →
      claims_active (read_state w.statefile now) = true →
      dictGet (status_route w now).1 "state" = some (.jstr "IDLE") ∧
      dictGet (status_route w now).1 "warnings" =
        some (.jarr [.jstr "Stale RUNNING state corrected."])) := by
  cases hp : w.pidfile with
  | none =>
    have hrr : registry_running w = false := registry_running_of_none hp
    have hfin : status_route w now =
        status_finish w now (read_state w.statefile now) false none :=
      status_route_of_none now hp
    by_cases hact : claims_active (read_state w.statefile now) = true
    · obtain ⟨g1, g2, g3, g4⟩ := status_finish_stale_fields w now
        (read_state w.statefile now) none hact
      refine ⟨?_, fun _ => ?_, ?_, fun _ _ => ⟨?_, ?_⟩⟩
      · rw [hrr, hfin]
        exact g1
      · rw [hfin]
        exact g2
      · intro hcon
        rw [hrr] at hcon
        exact Bool.noConfusion hcon
      · rw [hfin]
        exact g3
      · rw [hfin]
        exact g4
    · have hactf : claims_active (read_state w.statefile now) = false :=
        Bool.eq_false_iff.mpr hact
      obtain ⟨g1, g2⟩ := status_finish_plain_fields w now
        (read_state w.statefile now) false none (by rw [hactf]; rfl)
      refine ⟨?_, fun _ => ?_, ?_, fun _ hcc => absurd hcc hact⟩
      · rw [hrr, hfin]
        exact g1
      · rw [hfin]
        exact g2
      · intro hcon
        rw [hrr] at hcon
        exact Bool.noConfusion hcon
  | some c =>
    have hrv := registry_running_of_some hp
    have hroutev := status_route_of_some now hp
    cases hc : parseIntStr c with
    | none =>
      rw [hc] at hrv hroutev
      have hrr : registry_running w = false := hrv
      have hfin : status_route w now =
          status_finish { w with pidfile := none } now
            (read_state w.statefile now) false none := hroutev
      by_cases hact : claims_active (read_state w.statefile now) = true
      · obtain ⟨g1, g2, g3, g4⟩ := status_finish_stale_fields { w with pidfile := none }
          now (read_state w.statefile now) none hact
        refine ⟨?_, fun _ => ?_, ?_, fun _ _ => ⟨?_, ?_⟩⟩
        · rw [hrr, hfin]
          exact g1
        · rw [hfin]
          exact g2
        · intro hcon
          rw [hrr] at hcon
          exact Bool.noConfusion hcon
        · rw [hfin]
          exact g3
        · rw [hfin]
          exact g4
      · have hactf : claims_active (read_state w.statefile now) = false :=
          Bool.eq_false_iff.mpr hact
        obtain ⟨g1, g2⟩ := status_finish_plain_fields { w with pidfile := none } now
          (read_state w.statefile now) false none (by rw [hactf]; rfl)
        refine ⟨?_, fun _ => ?_, ?_, fun _ hcc => absurd hcc hact⟩
        · rw [hrr, hfin]
          exact g1
        · rw [hfin]
          exact g2
        · intro hcon
          rw [hrr] at hcon
          exact Bool.noConfusion hcon
    | some pid =>
      rw [hc] at hrv hroutev
      have hrp : registry_pid w = some pid := by
        unfold registry_pid
        rw [hp]
        show parseIntStr c = some pid
        exact hc
      have hfinv : status_route w now =
          status_route_checked w now (read_state w.statefile now) pid := hroutev
      by_cases hrun : pid_running_non_zombie w pid = true
      · have hrr : registry_running w = true := by rw [hrv]; exact hrun
        have hfin : status_route w now =
            status_finish w now (read_state w.statefile now) true (some pid) := by
          rw [hfinv]
          show (if pid_running_non_zombie w pid = true then
            status_finish w now (read_state w.statefile now) true (some pid)
            else status_finish { w with pidfile := none } now
              (read_state w.statefile now) false (some pid)) = _
          rw [if_pos hrun]
        obtain ⟨g1, g2⟩ := status_finish_plain_fields w now
          (read_state w.statefile now) true (some pid) (by simp)
        refine ⟨?_, ?_, fun _ => ?_, ?_⟩
        · rw [hrr, hfin]
          exact g1
        · intro hcon
          rw [hrr] at hcon
          exact Bool.noConfusion hcon
        · rw [hfin, hrp]
          exact g2
        · intro hcon
          rw [hrr] at hcon
          exact Bool.noConfusion hcon
      · have hrunf : pid_running_non_zombie w pid = false := Bool.eq_false_iff.mpr hrun
        have hrr : registry_running w = false := by rw [hrv]; exact hrunf
        have hfin : status_route w now =
            status_finish { w with pidfile := none } now
              (read_state w.statefile now) false (some pid) := by
          rw [hfinv]
          show (if pid_running_non_zombie w pid = true then
            status_finish w now (read_state w.statefile now) true (some pid)
            else status_finish { w with pidfile := none } now
              (read_state w.statefile now) false (some pid)) = _
          rw [if_neg hrun]
        by_cases hact : claims_active (read_state w.statefile now) = true
        · obtain ⟨g1, g2, g3, g4⟩ := status_finish_stale_fields
            { w with pidfile := none } now (read_state w.statefile now) (some pid) hact
          refine ⟨?_, fun _ => ?_, ?_, fun _ _ => ⟨?_, ?_⟩⟩
          · rw [hrr, hfin]
            exact g1
          · rw [hfin]
            exact g2
          · intro hcon
            rw [hrr] at hcon
            exact Bool.noConfusion hcon
          · rw [hfin]
            exact g3
          · rw [hfin]
            exact g4
        · have hactf : claims_active (read_state w.statefile now) = false :=
            Bool.eq_false_iff.mpr hact
          obtain ⟨g1, g2⟩ := status_finish_plain_fields { w with pidfile := none } now
            (read_state w.statefile now) false (some pid) (by rw [hactf]; rfl)
          refine ⟨?_, fun _ => ?_, ?_, fun _ hcc => absurd hcc hact⟩
          · rw [hrr, hfin]
            exact g1
          · rw [hfin]
            exact g2
          · intro hcon
            rw [hrr] at hcon
            exact Bool.noConfusion hcon

/-- Counterexample to C5 as stated: the registry holds pid 7, alive but
running a command line that does not identity-match the mission logger; the
status route still reports `running = true`, because it only checks
alive-and-not-zombie and never consults the command line. -/
theorem status_ignores_identity_cex :
    dictGet (status_route w_c5 100).1 "running" = some (.jbool true) ∧
    pid_is_logger w_c5 7 = false :=
  ⟨rfl, rfl⟩

/-- Witness for C5 (amended) at a world with no registry but a stored
RUNNING state: it is corrected to IDLE with the stale warning. -/
theorem status_running_characterization_witness :
    dictGet (status_route w_c5b 100).1 "running" =
      some (.jbool (registry_running w_c5b)) ∧
    dictGet (status_route w_c5b 100).1 "pid" = some Jval.jnull ∧
    dictGet (status_route w_c5b 100).1 "state" = some (.jstr "IDLE") ∧
    dictGet (status_route w_c5b 100).1 "warnings" =
      some (.jarr [.jstr "Stale RUNNING state corrected."]) := by
  have h := status_running_characterization w_c5b 100
  exact ⟨h.1, h.2.1 rfl, (h.2.2.2 rfl rfl).1, (h.2.2.2 rfl rfl).2⟩

/-! ## Claim C7: stream loop lemmas -/

theorem hbStep_proj (g : GenState) (i : TickIn) :
    ((hbStep g i).1).lastMissionId = g.lastMissionId ∧
    ((hbStep g i).1).eventsOpen = g.eventsOpen ∧
    ((hbStep g i).1).eventsPos = g.eventsPos := by
  unfold hbStep
  split <;> exact ⟨rfl, rfl, rfl⟩

theorem telEmit_fst (g : GenState) (m t : Option String) : (telEmit g m t).1 = g := by
  unfold telEmit
  split
  · split <;> rfl
  · rfl

theorem telStep_proj (g : GenState) (i : TickIn) :
    ((telStep g i).1).lastMissionId = g.lastMissionId ∧
    ((telStep g i).1).eventsOpen = g.eventsOpen ∧
    ((telStep g i).1).eventsPos = g.eventsPos := by
  have h : (telStep g i).1 = g ∨ (telStep g i).1 = { g with lastTelTs := i.now } := by
    unfold telStep
    split
    · right
      rw [telEmit_fst]
    · left
      rfl
  rcases h with h | h <;> rw [h] <;> exact ⟨rfl, rfl, rfl⟩

theorem resetStep_eq_changed {g : GenState} {i : TickIn}
    (h : missionOf i.st ≠ g.lastMissionId) :
    resetStep g i =
      { g with lastMissionId := missionOf i.st, eventsOpen := false, eventsPos := 0 } := by
  unfold resetStep
  rw [if_pos h]

theorem resetStep_eq_same {g : GenState} {i : TickIn}
    (h : ¬ missionOf i.st ≠ g.lastMissionId) :
    resetStep g i = g := by
  unfold resetStep
  rw [if_neg h]

theorem logOpen_opens {g : GenState} {evExists : Bool} (lines : List String)
    (hop : g.eventsOpen = false) (hex : evExists = true) :
    logOpen g evExists lines =
      { g with eventsOpen := true, eventsPos := lines.length } := by
  have hc : (!g.eventsOpen && evExists) = true := by rw [hop, hex]; rfl
  unfold logOpen
  rw [hc, if_pos rfl]

theorem logOpen_noop_open {g : GenState} {evExists : Bool} (lines : List String)
    (hop : g.eventsOpen = true) :
    logOpen g evExists lines = g := by
  have hc : (!g.eventsOpen && evExists) = false := by rw [hop]; rfl
  unfold logOpen
  rw [hc]
  rfl

theorem logOpen_noop_nofile {g : GenState} {evExists : Bool} (lines : List String)
    (hex : evExists = false) :
    logOpen g evExists lines = g := by
  have hc : (!g.eventsOpen && evExists) = false := by rw [hex]; simp
  unfold logOpen
  rw [hc]
  rfl

theorem logDrain_open {g : GenState} {lines : List String} (hop : g.eventsOpen = true) :
    logDrain g lines =
      ({ g with eventsPos := max g.eventsPos lines.length },
       (List.range' g.eventsPos (lines.length - g.eventsPos)).filterMap (fun n =>
         if pstrip (lines.getD n "") = "" then none else some (n, pstrip (lines.getD n "")))) := by
  unfold logDrain
  rw [if_pos hop]

theorem logDrain_closed {g : GenState} {lines : List String} (hop : g.eventsOpen = false) :
    logDrain g lines = (g, []) := by
  unfold logDrain
  rw [if_neg (by rw [hop]; decide)]

theorem logStep_not_truthy {g : GenState} {i : TickIn}
    (h : missionTruthy (missionOf i.st) = false) :
    logStep g i = (g, []) := by
  unfold logStep
  rw [if_neg (by rw [h]; decide)]

theorem logStep_opens {g : GenState} {i : TickIn}
    (htr : missionTruthy (missionOf i.st) = true) (hop : g.eventsOpen = false)
    (hex : i.evExists = true) :
    ((logStep g i).1).eventsOpen = true ∧
    ((logStep g i).1).eventsPos = i.evLines.length ∧
    (logStep g i).2 = [] ∧
    ((logStep g i).1).lastMissionId = g.lastMissionId := by
  have hstep : logStep g i =
      logDrain { g with eventsOpen := true, eventsPos := i.evLines.length } i.evLines := by
    unfold logStep
    rw [if_pos htr, logOpen_opens i.evLines hop hex]
  have hdr := @logDrain_open { g with eventsOpen := true, eventsPos := i.evLines.length }
    i.evLines rfl
  rw [hstep, hdr]
  refine ⟨rfl, max_self _, ?_, rfl⟩
  show (List.range' i.evLines.length (i.evLines.length - i.evLines.length)).filterMap _ = []
  rw [Nat.sub_self]
  rfl

theorem logStep_no_file {g : GenState} {i : TickIn}
    (htr : missionTruthy (missionOf i.st) = true) (hop : g.eventsOpen = false)
    (hex : i.evExists = false) :
    logStep g i = (g, []) := by
  unfold logStep
  rw [if_pos htr, logOpen_noop_nofile i.evLines hex, logDrain_closed hop]

theorem logStep_drains {g : GenState} {i : TickIn}
    (htr : missionTruthy (missionOf i.st) = true) (hop : g.eventsOpen = true) :
    ((logStep g i).1).eventsOpen = true ∧
    ((logStep g i).1).eventsPos = max g.eventsPos i.evLines.length ∧
    ((logStep g i).1).lastMissionId = g.lastMissionId ∧
    ∀ n s, (n, s) ∈ (logStep g i).2 → g.eventsPos ≤ n ∧ n < i.evLines.length := by
  have hstep : logStep g i = logDrain g i.evLines := by
    unfold logStep
    rw [if_pos htr, logOpen_noop_open i.evLines hop]
  rw [hstep, logDrain_open hop]
  refine ⟨hop, rfl, rfl, ?_⟩
  intro n s hmem
  rw [List.mem_filterMap] at hmem
  obtain ⟨m, hmr, hf⟩ := hmem
  rw [List.mem_range'_1] at hmr
  have hn : m = n := by
    by_cases hstrip : pstrip (i.evLines.getD m "") = ""
    · rw [if_pos hstrip] at hf
      exact absurd hf (by simp)
    · rw [if_neg hstrip] at hf
      injection hf with hf'
      exact congrArg Prod.fst hf'
  subst hn
  omega

theorem tick_lastMid (g : GenState) (i : TickIn) :
    ((tickG g i).1).lastMissionId = missionOf i.st := by
  have hreset : (resetStep (hbStep g i).1 i).lastMissionId = missionOf i.st := by
    by_cases hch : missionOf i.st ≠ ((hbStep g i).1).lastMissionId
    · rw [resetStep_eq_changed hch]
    · rw [resetStep_eq_same hch]
      exact (not_ne_iff.mp hch).symm
  have hlog : ∀ gg : GenState, ((logStep gg i).1).lastMissionId = gg.lastMissionId := by
    intro gg
    by_cases htr : missionTruthy (missionOf i.st) = true
    · by_cases hop : gg.eventsOpen = true
      · exact (logStep_drains htr hop).2.2.1
      · have hopf : gg.eventsOpen = false := Bool.eq_false_iff.mpr hop
        by_cases hex : i.evExists = true
        · exact (logStep_opens htr hopf hex).2.2.2
        · rw [logStep_no_file htr hopf (Bool.eq_false_iff.mpr hex)]
    · rw [logStep_not_truthy (Bool.eq_false_iff.mpr htr)]
  show ((logStep (telStep (resetStep (hbStep g i).1 i) i).1 i).1).lastMissionId = _
  rw [hlog, (telStep_proj (resetStep (hbStep g i).1 i) i).1, hreset]

theorem pre_log_same (g : GenState) (i : TickIn)
    (hch : missionOf i.st = g.lastMissionId) :
    ((telStep (resetStep (hbStep g i).1 i) i).1).eventsOpen = g.eventsOpen ∧
    ((telStep (resetStep (hbStep g i).1 i) i).1).eventsPos = g.eventsPos := by
  obtain ⟨hb1, hb2, hb3⟩ := hbStep_proj g i
  have hch' : ¬ missionOf i.st ≠ ((hbStep g i).1).lastMissionId := by
    rw [hb1]
    exact not_ne_iff.mpr hch
  rw [resetStep_eq_same hch']
  obtain ⟨-, ht2, ht3⟩ := telStep_proj (hbStep g i).1 i
  exact ⟨ht2.trans hb2, ht3.trans hb3⟩

theorem pre_log_changed (g : GenState) (i : TickIn)
    (hch : missionOf i.st ≠ g.lastMissionId) :
    ((telStep (resetStep (hbStep g i).1 i) i).1).eventsOpen = false ∧
    ((telStep (resetStep (hbStep g i).1 i) i).1).eventsPos = 0 := by
  obtain ⟨hb1, -, -⟩ := hbStep_proj g i
  have hch' : missionOf i.st ≠ ((hbStep g i).1).lastMissionId := by
    rw [hb1]
    exact hch
  obtain ⟨-, ht2, ht3⟩ := telStep_proj (resetStep (hbStep g i).1 i) i
  constructor
  · rw [ht2, resetStep_eq_changed hch']
  · rw [ht3, resetStep_eq_changed hch']

theorem tick_logs_sound (g : GenState) (i : TickIn) (n : Nat) (s : String)
    (hmem : (n, s) ∈ ((tickG g i).2).logs) :
    missionOf i.st = g.lastMissionId ∧ g.eventsOpen = true ∧
    g.eventsPos ≤ n ∧ n < i.evLines.length := by
  have hmem' : (n, s) ∈ (logStep (telStep (resetStep (hbStep g i).1 i) i).1 i).2 := hmem
  by_cases htr : missionTruthy (missionOf i.st) = true
  · by_cases hch : missionOf i.st = g.lastMissionId
    · obtain ⟨hopen2, hpos2⟩ := pre_log_same g i hch
      by_cases hop : g.eventsOpen = true
      · have hg3op : ((telStep (resetStep (hbStep g i).1 i) i).1).eventsOpen = true := by
          rw [hopen2]
          exact hop
        obtain ⟨-, -, -, hm⟩ := logStep_drains htr hg3op
        have hr := hm n s hmem'
        rw [hpos2] at hr
        exact ⟨hch, hop, hr.1, hr.2⟩
      · have hg3opf : ((telStep (resetStep (hbStep g i).1 i) i).1).eventsOpen = false := by
          rw [hopen2]
          exact Bool.eq_false_iff.mpr hop
        by_cases hex : i.evExists = true
        · obtain ⟨-, -, hnil, -⟩ := logStep_opens htr hg3opf hex
          rw [hnil] at hmem'
          exact absurd hmem' (List.not_mem_nil _)
        · rw [logStep_no_file htr hg3opf (Bool.eq_false_iff.mpr hex)] at hmem'
          exact absurd hmem' (List.not_mem_nil _)
    · have hg3opf := (pre_log_changed g i hch).1
      by_cases hex : i.evExists = true
      · obtain ⟨-, -, hnil, -⟩ := logStep_opens htr hg3opf hex
        rw [hnil] at hmem'
        exact absurd hmem' (List.not_mem_nil _)
      · rw [logStep_no_file htr hg3opf (Bool.eq_false_iff.mpr hex)] at hmem'
        exact absurd hmem' (List.not_mem_nil _)
  · rw [logStep_not_truthy (Bool.eq_false_iff.mpr htr)] at hmem'
    exact absurd hmem' (List.not_mem_nil _)

theorem tick_pos_reset (g : GenState) (i : TickIn)
    (h : missionOf i.st ≠ g.lastMissionId ∨ g.eventsOpen = false)
    (hopen' : ((tickG g i).1).eventsOpen = true) :
    ((tickG g i).1).eventsPos = i.evLines.length := by
  have hg3 : ((telStep (resetStep (hbStep g i).1 i) i).1).eventsOpen = false := by
    rcases h with h | h
    · exact (pre_log_changed g i h).1
    · by_cases hch : missionOf i.st = g.lastMissionId
      · exact ((pre_log_same g i hch).1).trans h
      · exact (pre_log_changed g i hch).1
  have hopen'' : ((logStep (telStep (resetStep (hbStep g i).1 i) i).1 i).1).eventsOpen =
    true := hopen'
  by_cases htr : missionTruthy (missionOf i.st) = true
  · by_cases hex : i.evExists = true
    · exact (logStep_opens htr hg3 hex).2.1
    · rw [logStep_no_file htr hg3 (Bool.eq_false_iff.mpr hex)] at hopen''
      have hcontra : ((telStep (resetStep (hbStep g i).1 i) i).1).eventsOpen = true := hopen''
      rw [hg3] at hcontra
      exact Bool.noConfusion hcontra
  · rw [logStep_not_truthy (Bool.eq_false_iff.mpr htr)] at hopen''
    have hcontra : ((telStep (resetStep (hbStep g i).1 i) i).1).eventsOpen = true := hopen''
    rw [hg3] at hcontra
    exact Bool.noConfusion hcontra

theorem tick_pos_drain (g : GenState) (i : TickIn)
    (hch : missionOf i.st = g.lastMissionId) (hop : g.eventsOpen = true)
    (htr : missionTruthy (missionOf i.st) = true) :
    ((tickG g i).1).eventsOpen = true ∧
    ((tickG g i).1).eventsPos = max g.eventsPos i.evLines.length := by
  obtain ⟨hopen2, hpos2⟩ := pre_log_same g i hch
  have hg3op : ((telStep (resetStep (hbStep g i).1 i) i).1).eventsOpen = true := by
    rw [hopen2]
    exact hop
  obtain ⟨ho, hp, -, -⟩ := logStep_drains htr hg3op
  refine ⟨ho, ?_⟩
  show ((logStep (telStep (resetStep (hbStep g i).1 i) i).1 i).1).eventsPos = _
  rw [hp, hpos2]

theorem tick_frozen (g : GenState) (i : TickIn)
    (hch : missionOf i.st = g.lastMissionId)
    (htr : missionTruthy (missionOf i.st) = false) :
    ((tickG g i).1).eventsOpen = g.eventsOpen ∧
    ((tickG g i).1).eventsPos = g.eventsPos := by
  obtain ⟨hopen2, hpos2⟩ := pre_log_same g i hch
  have hstep := logStep_not_truthy (g := (telStep (resetStep (hbStep g i).1 i) i).1) htr
  constructor
  · show ((logStep (telStep (resetStep (hbStep g i).1 i) i).1 i).1).eventsOpen = _
    rw [hstep]
    exact hopen2
  · show ((logStep (telStep (resetStep (hbStep g i).1 i) i).1 i).1).eventsPos = _
    rw [hstep]
    exact hpos2

theorem tick_open_truthy (g : GenState) (i : TickIn)
    (hg : g.eventsOpen = true → missionTruthy g.lastMissionId = true)
    (hopen' : ((tickG g i).1).eventsOpen = true) :
    missionTruthy (((tickG g i).1).lastMissionId) = true := by
  rw [tick_lastMid]
  by_cases htr : missionTruthy (missionOf i.st) = true
  · exact htr
  · have htrf := Bool.eq_false_iff.mpr htr
    by_cases hch : missionOf i.st = g.lastMissionId
    · obtain ⟨ho, -⟩ := tick_frozen g i hch htrf
      rw [ho] at hopen'
      exact absurd (by rw [hch]; exact hg hopen') htr
    · have hg3 := (pre_log_changed g i hch).1
      have hopen'' : ((logStep (telStep (resetStep (hbStep g i).1 i) i).1 i).1).eventsOpen =
        true := hopen'
      rw [logStep_not_truthy htrf] at hopen''
      have hcontra : ((telStep (resetStep (hbStep g i).1 i) i).1).eventsOpen = true := hopen''
      rw [hg3] at hcontra
      exact Bool.noConfusion hcontra

theorem stateAt_succ (ins : List TickIn) (t : Nat) :
    stateAt ins (t + 1) = (tickG (stateAt ins t) (ins.getD t default)).1 := rfl

theorem open_truthy_run (ins : List TickIn) : ∀ t,
    (stateAt ins t).eventsOpen = true →
    missionTruthy ((stateAt ins t).lastMissionId) = true := by
  intro t
  induction t with
  | zero =>
    intro h
    have h0 : (stateAt ins 0).eventsOpen = false := rfl
    rw [h0] at h
    exact Bool.noConfusion h
  | succ t ih =>
    intro h
    exact tick_open_truthy _ _ ih h

theorem pos_ge_run (ins : List TickIn)
    (hmono : ∀ s t, s ≤ t → t < ins.length →
      missionOf ((ins.getD s default)).st = missionOf ((ins.getD t default)).st →
      (ins.getD s default).evLines <+: (ins.getD t default).evLines) :
    ∀ t, t ≤ ins.length → ∀ s, s < t →
    (∀ u, s ≤ u → u < t →
      missionOf ((ins.getD u default)).st = missionOf ((ins.getD s default)).st) →
    (stateAt ins t).eventsOpen = true →
    ((ins.getD s default)).evLines.length ≤ (stateAt ins t).eventsPos := by
  intro t
  induction t with
  | zero =>
    intro _ s hs _ _
    exact absurd hs (Nat.not_lt_zero s)
  | succ t ih =>
    intro hlen s hs hconst hopen'
    have hlt : t < ins.length := Nat.lt_of_succ_le hlen
    have htle : t ≤ ins.length := le_of_lt hlt
    by_cases hch : missionOf ((ins.getD t default)).st = (stateAt ins t).lastMissionId
    · by_cases htr : missionTruthy (missionOf ((ins.getD t default)).st) = true
      · by_cases hop : (stateAt ins t).eventsOpen = true
        · obtain ⟨ho, hp⟩ := tick_pos_drain (stateAt ins t) (ins.getD t default) hch hop htr
          rw [stateAt_succ, hp]
          rcases Nat.lt_succ_iff_lt_or_eq.mp hs with hs' | hs'
          · have hihr := ih htle s hs'
              (fun u hu1 hu2 => hconst u hu1 (Nat.lt_succ_of_lt hu2)) hop
            exact le_trans hihr (le_max_left _ _)
          · subst hs'
            exact le_max_right _ _
        · have hopf : (stateAt ins t).eventsOpen = false := Bool.eq_false_iff.mpr hop
          rw [stateAt_succ] at hopen'
          have hp := tick_pos_reset (stateAt ins t) (ins.getD t default)
            (Or.inr hopf) hopen'
          rw [stateAt_succ, hp]
          rcases Nat.lt_succ_iff_lt_or_eq.mp hs with hs' | hs'
          · have hmis : missionOf ((ins.getD s default)).st =
                missionOf ((ins.getD t default)).st :=
              (hconst t (le_of_lt hs') (Nat.lt_succ_self t)).symm
            exact (hmono s t (le_of_lt hs') hlt hmis).length_le
          · subst hs'
            exact le_refl _
      · have htrf := Bool.eq_false_iff.mpr htr
        obtain ⟨ho, hp⟩ := tick_frozen (stateAt ins t) (ins.getD t default) hch htrf
        rw [stateAt_succ] at hopen'
        rw [ho] at hopen'
        have htru := open_truthy_run ins t hopen'
        rw [← hch] at htru
        exact absurd htru htr
    · rcases Nat.lt_succ_iff_lt_or_eq.mp hs with hs' | hs'
      · obtain ⟨t', rfl⟩ : ∃ t', t = t' + 1 := ⟨t - 1, by omega⟩
        have hlm : (stateAt ins (t' + 1)).lastMissionId =
            missionOf ((ins.getD t' default)).st := by
          rw [stateAt_succ]
          exact tick_lastMid _ _
        have h1 := hconst t' (by omega) (by omega)
        have h2 := hconst (t' + 1) (by omega) (by omega)
        exact absurd (by rw [hlm]; exact h2.trans h1.symm) hch
      · subst hs'
        rw [stateAt_succ] at hopen'
        have hp := tick_pos_reset (stateAt ins s) (ins.getD s default) (Or.inl hch) hopen'
        rw [stateAt_succ, hp]

/-- C7: in every run of the stream loop from its initial state, whenever a
log event is emitted at iteration `t` for line `n` of the current mission's
(append-only) events file, the index `n` is at least the length the file had
at EVERY earlier iteration `s` of the same uninterrupted mission epoch — in
particular at the moment the mission id last changed and at the moment the
log was (re)opened at end-of-file.  Hence a line that was present at either
of those moments is never emitted: only lines appended after the cursor
reset are, and the cursor only moves forward. -/
theorem stream_no_replay (ins : List TickIn)
    (hmono : ∀ s t, s ≤ t → t < ins.length →
      missionOf ((ins.getD s default)).st = missionOf ((ins.getD t default)).st →
      (ins.getD s default).evLines <+: (ins.getD t default).evLines)
    (t : Nat) (ht : t < ins.length) (s : Nat) (hst : s < t)
    (hconst : ∀ u, s ≤ u → u ≤ t →
      missionOf ((ins.getD u default)).st = missionOf ((ins.getD t default)).st)
    (n : Nat) (txt : String) (hmem : (n, txt) ∈ ((outAt ins t)).logs) :
    ((ins.getD s default)).evLines.length ≤ n ∧
    n < ((ins.getD t default)).evLines.length := by
  obtain ⟨hch, hop, hpos, hlen⟩ :=
    tick_logs_sound (stateAt ins t) (ins.getD t default) n txt hmem
  refine ⟨?_, hlen⟩
  have hconst' : ∀ u, s ≤ u → u < t →
      missionOf ((ins.getD u default)).st = missionOf ((ins.getD s default)).st :=
    fun u hu1 hu2 => (hconst u hu1 (le_of_lt hu2)).trans
      (hconst s le_rfl (le_of_lt hst)).symm
  have hpg := pos_ge_run ins hmono t (le_of_lt ht) s hst hconst' hop
  exact le_trans hpg hpos

/-- Witness for C7: two iterations over mission "m"; line "a" pre-exists at
the (re)open, line "b" is appended afterwards; the only emitted log event is
line 1 ("b"), and the theorem bounds its index by the earlier file length. -/
theorem stream_no_replay_witness :
    ((ins_c7.getD 0 default)).evLines.length ≤ 1 ∧
    1 < ((ins_c7.getD 1 default)).evLines.length := by
  refine stream_no_replay ins_c7 ?_ 1 (by decide) 0 (by decide) ?_ 1 "b" ?_
  · intro s t hst hlt hm
    have hlt2 : t < 2 := hlt
    clear hlt hm
    interval_cases t
    · interval_cases s
      · exact ⟨[], rfl⟩
    · interval_cases s
      · exact ⟨["b"], rfl⟩
      · exact ⟨[], rfl⟩
  · intro u hu1 hu2
    interval_cases u
    · rfl
    · rfl
  · have hout : (outAt ins_c7 1).logs = [(1, "b")] := rfl
    rw [hout]
    exact List.mem_cons_self _ _
